import Mathlib

/-!
Verification of the Finance3D-Polar widget dashboard and live-price
subscription multiplexer against its specification.

The development shallowly embeds the TypeScript source:

* `src/hooks/useLiveCryptoPrice.ts` — ticker normalization
  (`convertTickerFormat`), the shared WebSocket subscription registry
  (`subscribeTicker`, `unsubscribeTicker`, `processPendingSubscriptions`),
  the close/reconnect handlers.
* the dashboard component (`FlexibleDashboard`) — the widget collection and
  its operations `addWidget`, `removeWidget`, `moveWidget`, `resizeWidget`,
  `toggleMaximize`, plus layout persistence through JSON.
* `src/components/ui/flexiblecard.tsx` — the resize-gesture geometry
  (`handleMouseMove`).

Strings are modelled as `List Char`; JavaScript numbers as `Int` (all the
values the claims touch are pixel coordinates and sizes); the JSON built-ins
`JSON.stringify` / `JSON.parse` as an executable printer and recursive-descent
parser over a `Json` tree (without insignificant whitespace, string escapes or
float exponents, none of which the persisted layouts contain).
-/

namespace Finance3D

/-! ## String helpers (List Char models of the JS string operations used) -/

/-- The literal `"-USD"` used throughout `convertTickerFormat`. -/
def usdSuffix : List Char := "-USD".data

/-- Membership of a character class `[A-Z]`. -/
def isUpperAZ (c : Char) : Bool := decide ('A' ≤ c) && decide (c ≤ 'Z')

/-- Model of the regex test `/^[A-Z]+-USD$/.test(input)`: the string is one or
more uppercase letters followed by the literal `-USD`. -/
def matchesCanonicalPattern (s : List Char) : Bool :=
  decide (usdSuffix <:+ s) && decide (5 ≤ s.length)
    && (s.take (s.length - 4)).all isUpperAZ

/-- Model of JavaScript `s.replace(pat, '')` with a *string* pattern, which
replaces only the first occurrence. -/
def replaceFirst (pat : List Char) : List Char → List Char
  | [] => []
  | c :: rest =>
    if pat <+: c :: rest then (c :: rest).drop pat.length
    else c :: replaceFirst pat rest

/-- Model of `formatted.replace(/(USD|USDT)$/, '')`: the only matches of that
regex ending at the end of the string are the suffixes `USDT` and `USD`
(mutually exclusive), and the leftmost-starting one wins, which is `USDT`
when present. -/
def stripUsdSuffix (s : List Char) : List Char :=
  if "USDT".data <:+ s then s.take (s.length - 4)
  else if "USD".data <:+ s then s.take (s.length - 3)
  else s

/-- Model of the base/quote grouping step of `convertTickerFormat`: when the
string has no `-` and at least 6 characters, insert `-` after the first three
characters (`substring(0,3)` / `substring(3)`). -/
def groupPair (s : List Char) : List Char :=
  if ('-' ∉ s) ∧ 6 ≤ s.length then s.take 3 ++ '-' :: s.drop 3 else s

/-- Model of the final step of `convertTickerFormat`: if the string does not
end with `-USD`, replace it by `formatted.split('-')[0] + '-USD'`. -/
def formatQuote (s : List Char) : List Char :=
  if usdSuffix <:+ s then s
  else s.takeWhile (fun c => c ≠ '-') ++ usdSuffix

/-- Embedding of `convertTickerFormat` from `src/hooks/useLiveCryptoPrice.ts`
(lines 86–119): return canonical `BASE-USD` strings and the wildcard `*`
unchanged, otherwise drop an `X:` prefix occurrence, strip a `USD`/`USDT`
suffix, group a 6+ character pair as `xxx-rest`, and force the quote
currency to `USD`. -/
def convertTickerFormat (input : List Char) : List Char :=
  if matchesCanonicalPattern input then input
  else if input = "*".data then input
  else formatQuote (groupPair (stripUsdSuffix (replaceFirst "X:".data input)))

/-! ## Helper lemmas about the string models -/

theorem suffix_eq_of_length {α : Type} {l₁ l₂ s : List α}
    (h₁ : l₁ <:+ s) (h₂ : l₂ <:+ s) (h : l₁.length = l₂.length) : l₁ = l₂ := by
  obtain ⟨t₁, rfl⟩ := h₁
  obtain ⟨t₂, e⟩ := h₂
  exact ((List.append_inj' e h.symm).2).symm

theorem replaceFirst_of_no_colon :
    ∀ s : List Char, ':' ∉ s → replaceFirst "X:".data s = s := by
  intro s
  induction s with
  | nil => intro _; rfl
  | cons c rest ih =>
    intro h
    unfold replaceFirst
    rw [if_neg, ih (fun hm => h (List.mem_cons_of_mem _ hm))]
    intro hpre
    obtain ⟨t, ht⟩ := hpre
    have : rest = ':' :: t := by
      have := ht
      simp only [List.cons_append] at this
      exact (List.cons.injEq _ _ _ _ ▸ this).2 ▸ by
        cases this
        rfl
    exact h (this ▸ List.mem_cons_of_mem _ (List.mem_cons_self _ _))

theorem takeWhile_append_all {p : Char → Bool} (front tail : List Char)
    (h : ∀ c ∈ front, p c = true) :
    List.takeWhile p (front ++ tail) = front ++ List.takeWhile p tail := by
  induction front with
  | nil => simp
  | cons c rest ih =>
    rw [List.cons_append, List.takeWhile_cons_of_pos (h c (List.mem_cons_self _ _)),
      ih (fun d hd => h d (List.mem_cons_of_mem _ hd)), List.cons_append]

theorem formatQuote_suffix (s : List Char) : usdSuffix <:+ formatQuote s := by
  unfold formatQuote
  split
  · assumption
  · exact List.suffix_append _ _

/-! ## Claim C10 -/

/-- C10 (counterexample): `convertTickerFormat` is not idempotent — on
`"X:X:BTCUSD"` it yields `"X:BTC-USD"`, and applying it once more yields
`"BTC-USD"`, because only the first `X:` occurrence is removed per pass. -/
theorem convertTickerFormat_not_idempotent :
    convertTickerFormat (convertTickerFormat "X:X:BTCUSD".data)
      ≠ convertTickerFormat "X:X:BTCUSD".data := by
  decide

/-- C10 (amended): every output of `convertTickerFormat` is the wildcard `*`
or ends in `-USD`; the wildcard is itself a fixed point; and every string of
the form `base ++ "-USD"` whose base contains neither `-` nor `:` is a fixed
point — so the normalizer is idempotent whenever the base of its output is
clean in that sense (which holds for all ordinary ticker spellings), though
not for arbitrary inputs. -/
theorem convertTickerFormat_canonical :
    (∀ s : List Char,
        convertTickerFormat s = "*".data
          ∨ usdSuffix <:+ convertTickerFormat s)
      ∧ convertTickerFormat "*".data = "*".data
      ∧ (∀ p : List Char, '-' ∉ p → ':' ∉ p →
          convertTickerFormat (p ++ usdSuffix) = p ++ usdSuffix) := by
  refine ⟨?_, by decide, ?_⟩
  · intro s
    unfold convertTickerFormat
    split
    · next h =>
      right
      unfold matchesCanonicalPattern at h
      rw [Bool.and_eq_true, Bool.and_eq_true] at h
      exact of_decide_eq_true h.1.1
    · split
      · next h2 => left; exact h2
      · right; exact formatQuote_suffix _
  · intro p hdash hcolon
    unfold convertTickerFormat
    split
    · rfl
    · rw [if_neg]
      · have hcol : ':' ∉ p ++ usdSuffix := by
          intro hm
          rcases List.mem_append.mp hm with h | h
          · exact hcolon h
          · revert h; decide
        rw [replaceFirst_of_no_colon _ hcol]
        have husdt : ¬ ("USDT".data <:+ p ++ usdSuffix) := by
          intro h
          have h2 : usdSuffix <:+ p ++ usdSuffix := List.suffix_append _ _
          have : "USDT".data = usdSuffix := suffix_eq_of_length h h2 (by decide)
          revert this; decide
        have husd : "USD".data <:+ p ++ usdSuffix := by
          have : p ++ usdSuffix = (p ++ ['-']) ++ "USD".data := by
            simp [usdSuffix]
          rw [this]
          exact List.suffix_append _ _
        have hstrip : stripUsdSuffix (p ++ usdSuffix) = p ++ ['-'] := by
          unfold stripUsdSuffix
          rw [if_neg husdt, if_pos husd]
          have hlen : (p ++ usdSuffix).length - 3 = (p ++ ['-']).length := by
            simp [usdSuffix]
          rw [hlen]
          have : p ++ usdSuffix = (p ++ ['-']) ++ "USD".data := by
            simp [usdSuffix]
          rw [this, List.take_left]
        rw [hstrip]
        have hgroup : groupPair (p ++ ['-']) = p ++ ['-'] := by
          unfold groupPair
          rw [if_neg]
          intro hand
          exact hand.1 (List.mem_append_right _ (List.mem_singleton.mpr rfl))
        rw [hgroup]
        unfold formatQuote
        rw [if_neg]
        · rw [takeWhile_append_all p ['-']
            (fun c hc => decide_eq_true (by
              intro he; exact hdash (he ▸ hc)))]
          simp
        · intro hsuf
          have hD : ['D'] <:+ p ++ ['-'] :=
            List.IsSuffix.trans (by decide) hsuf
          have hdashS : ['-'] <:+ p ++ ['-'] := List.suffix_append _ _
          have : (['D'] : List Char) = ['-'] :=
            suffix_eq_of_length hD hdashS rfl
          revert this; decide
      · intro he
        have := congrArg List.length he
        simp [usdSuffix] at this

/-- C10 (witness): the amended canonicity theorem applied with base `"BTC"`,
whose clean base makes `"BTC-USD"` a fixed point of the normalizer. -/
theorem convertTickerFormat_canonical_witness :
    ('-' ∉ "BTC".data ∧ ':' ∉ "BTC".data)
    ∧ convertTickerFormat ("BTC".data ++ usdSuffix) = "BTC".data ++ usdSuffix :=
  ⟨⟨by decide, by decide⟩,
    convertTickerFormat_canonical.2.2 "BTC".data (by decide) (by decide)⟩

/-! ## Subscription multiplexer (src/hooks/useLiveCryptoPrice.ts)

The module-level mutable state of the hook file is collected in `MuxState`.
Listener callbacks are identified by an opaque `CallbackId` (JS closures
compare by reference). `Set` objects are modelled as duplicate-free lists in
insertion order (`setAdd` / `setDel`), `Map` objects as association lists in
insertion order (`mapGet` / `mapSet` / `mapDel`). Outbound WebSocket traffic
is returned as a list of `WsFrame`s; a `sendOk` argument models whether a
`cryptoWS.send` call throws (the JS code catches and continues). -/

/-- Identifier of a listener callback registered with the shared socket. -/
abbrev CallbackId := Nat

/-- Outbound frames of the shared WebSocket (the `action` field of the JSON
frames, with `params`), plus the `close()` call. -/
inductive WsFrame where
  | subscribeF (params : List Char)
  | unsubscribeF (params : List Char)
  | closeF
deriving DecidableEq

/-- Model of `Set.prototype.add`: append unless already present. -/
def setAdd {α : Type} [DecidableEq α] (s : List α) (a : α) : List α :=
  if a ∈ s then s else s ++ [a]

/-- Model of `Set.prototype.delete`. -/
def setDel {α : Type} [DecidableEq α] (s : List α) (a : α) : List α :=
  s.filter (fun b => b ≠ a)

/-- Model of `Array.prototype.splice(indexOf(a), 1)`: drop the first
occurrence, identity when absent. -/
def removeFirst {α : Type} [DecidableEq α] : List α → α → List α
  | [], _ => []
  | b :: rest, a => if b = a then rest else b :: removeFirst rest a

/-- Model of `Map.prototype.get`. -/
def mapGet {β : Type} : List (List Char × β) → List Char → Option β
  | [], _ => none
  | kv :: rest, k => if kv.1 = k then some kv.2 else mapGet rest k

/-- Model of `Map.prototype.set`: replace the entry with that key in place,
else append. -/
def mapSet {β : Type} : List (List Char × β) → List Char → β → List (List Char × β)
  | [], k, v => [(k, v)]
  | kv :: rest, k, v => if kv.1 = k then (k, v) :: rest else kv :: mapSet rest k v

/-- Model of `Map.prototype.delete`. -/
def mapDel {β : Type} : List (List Char × β) → List Char → List (List Char × β)
  | [], _ => []
  | kv :: rest, k => if kv.1 = k then rest else kv :: mapDel rest k

/-- The module-level mutable variables of `useLiveCryptoPrice.ts` (lines
41–57). `sharedWsClient = some rs` models a non-null client whose
`readyState` is `rs` (`1` = OPEN); `connectingPromise` records whether the
connection promise is pending; `reconnectTimer` whether a reconnect timeout
is scheduled. -/
structure MuxState where
  sharedWsClient : Option Nat
  connectingPromise : Bool
  isConnected : Bool
  isAuthenticated : Bool
  currentSubscriptions : List (List Char)
  pendingSubscriptions : List (List Char)
  subscribers : List (List Char × List CallbackId)
  reconnectAttempts : Nat
  reconnectTimer : Bool
  isAddingNewSubscription : Bool
deriving DecidableEq

/-- `let maxReconnectAttempts = 5` (line 49). -/
def maxReconnectAttempts : Nat := 5

/-- The subscription parameter string: `XT.*` for the wildcard, otherwise
`XT.` followed by the formatted ticker (lines 413, 471). -/
def subscriptionParam (formatted : List Char) : List Char :=
  if formatted = "*".data then "XT.*".data else "XT.".data ++ formatted

/-- The synchronous effect of `setupWebSocket` (lines 124–348): bail out when
already connected or already connecting, otherwise create the client (its
`readyState` starts at 0 = CONNECTING) and record the pending promise. The
asynchronous open/auth/close continuations are modelled by the separate step
functions below. -/
def setupWebSocket (st : MuxState) : MuxState :=
  if st.sharedWsClient.isSome ∧ st.isConnected then st
  else if st.connectingPromise then st
  else { st with connectingPromise := true, sharedWsClient := some 0 }

/-- Embedding of `subscribeTicker` (lines 389–462). `sendOk` tells whether
the immediate-subscribe `send` succeeds; on failure the catch block leaves
the subscription pending and appends nothing. -/
def subscribeTicker (st : MuxState) (ticker : List Char) (cb : CallbackId)
    (silentMode : Bool) (sendOk : Bool) : MuxState × List WsFrame :=
  let formatted := convertTickerFormat ticker
  let st := if silentMode then { st with isAddingNewSubscription := true } else st
  let newSubs := mapSet st.subscribers formatted
    (setAdd ((mapGet st.subscribers formatted).getD []) cb)
  let st := { st with subscribers := newSubs }
  let subscription := subscriptionParam formatted
  if subscription ∈ st.currentSubscriptions then (st, [])
  else
    let st := { st with pendingSubscriptions := setAdd st.pendingSubscriptions subscription }
    if st.sharedWsClient = none ∧ ¬ st.connectingPromise then (setupWebSocket st, [])
    else if st.isAuthenticated ∧ st.sharedWsClient = some 1 then
      if sendOk then
        ({ st with
            currentSubscriptions := st.currentSubscriptions ++ [subscription],
            pendingSubscriptions := setDel st.pendingSubscriptions subscription },
          [WsFrame.subscribeF subscription])
      else (st, [])
    else (st, [])

/-- The loop body of `processPendingSubscriptions` (lines 359–381): walk the
pending set in order, skip strings already in the active list, send and
append the rest (a throwing `send`, `subscription ∉ sendOkSet`, is caught
and appends nothing). -/
def processPendingLoop (sendOkSet : List (List Char)) :
    List (List Char) → List (List Char) → List (List Char) × List WsFrame
  | current, [] => (current, [])
  | current, sub :: rest =>
    if sub ∈ current then processPendingLoop sendOkSet current rest
    else if sub ∈ sendOkSet then
      let r := processPendingLoop sendOkSet (current ++ [sub]) rest
      (r.1, WsFrame.subscribeF sub :: r.2)
    else processPendingLoop sendOkSet current rest

/-- Embedding of `processPendingSubscriptions` (lines 353–384): a no-op
unless the client exists, is authenticated and OPEN; afterwards the pending
set is cleared wholesale. -/
def processPendingSubscriptions (st : MuxState) (sendOkSet : List (List Char)) :
    MuxState × List WsFrame :=
  if st.sharedWsClient = some 1 ∧ st.isAuthenticated then
    let r := processPendingLoop sendOkSet st.currentSubscriptions st.pendingSubscriptions
    ({ st with currentSubscriptions := r.1, pendingSubscriptions := [] }, r.2)
  else (st, [])

/-- Embedding of `unsubscribeTicker` (lines 467–532): drop the string from
the pending set, remove the callback; when it was the last callback for the
ticker, remove the registry entry and best-effort unsubscribe upstream (the
splice happens even when `send` throws, and also on the not-connected path);
finally, when no subscribers remain at all, close and reset everything. -/
def unsubscribeTicker (st0 : MuxState) (ticker : List Char) (cb : CallbackId)
    (sendOk : Bool) : MuxState × List WsFrame :=
  let formatted := convertTickerFormat ticker
  let subscription := subscriptionParam formatted
  let st1 := { st0 with pendingSubscriptions := setDel st0.pendingSubscriptions subscription }
  match mapGet st1.subscribers formatted with
  | none => (st1, [])
  | some callbacks =>
    let callbacks1 := setDel callbacks cb
    let p : MuxState × List WsFrame :=
      if callbacks1.length = 0 then
        let st2 := { st1 with subscribers := mapDel st1.subscribers formatted }
        if st2.sharedWsClient = some 1 ∧ st2.isAuthenticated then
          if subscription ∈ st2.currentSubscriptions then
            ({ st2 with currentSubscriptions := removeFirst st2.currentSubscriptions subscription },
              if sendOk then [WsFrame.unsubscribeF subscription] else [])
          else (st2, [])
        else
          ({ st2 with currentSubscriptions := removeFirst st2.currentSubscriptions subscription }, [])
      else
        ({ st1 with subscribers := mapSet st1.subscribers formatted callbacks1 }, [])
    if p.1.subscribers.length = 0 ∧ p.1.sharedWsClient.isSome then
      ({ p.1 with
          sharedWsClient := none, isConnected := false, isAuthenticated := false,
          currentSubscriptions := [], pendingSubscriptions := [],
          reconnectAttempts := 0, isAddingNewSubscription := false,
          reconnectTimer := false },
        p.2 ++ [WsFrame.closeF])
    else p

/-- Embedding of the `cryptoWS.onclose` handler (lines 192–244), state
mutations and reconnect scheduling only: the second component is the delay
of the scheduled reconnect timeout, `none` when no reconnect is scheduled. -/
def handleClose (st : MuxState) : MuxState × Option Nat :=
  let st := { st with isConnected := false, isAuthenticated := false,
                      sharedWsClient := none, connectingPromise := false }
  if 0 < st.subscribers.length ∧ st.reconnectAttempts < maxReconnectAttempts then
    let attempts := st.reconnectAttempts + 1
    let delay := min (1000 * 2 ^ (attempts - 1)) 30000
    ({ st with reconnectAttempts := attempts, reconnectTimer := true }, some delay)
  else (st, none)

/-- Embedding of the hook's manual `reconnect` callback (lines 624–662):
discard any existing client and pending promise, cancel the reconnect timer,
reset the attempt counter, then run connection setup again. -/
def reconnect (st : MuxState) : MuxState :=
  let st :=
    if st.sharedWsClient.isSome then
      { st with sharedWsClient := none, isConnected := false,
                isAuthenticated := false, connectingPromise := false }
    else st
  let st := { st with reconnectTimer := false, reconnectAttempts := 0 }
  setupWebSocket st

/-- Well-formedness of the registry: the active list, the pending set and
every subscriber set are duplicate-free (true of the JS values by
construction: `Set`s cannot hold duplicates and the active list is only
extended after a membership check). -/
def MuxWF (st : MuxState) : Prop :=
  st.currentSubscriptions.Nodup ∧ st.pendingSubscriptions.Nodup ∧
    ∀ kv ∈ st.subscribers, (kv.2 : List CallbackId).Nodup

instance (st : MuxState) : Decidable (MuxWF st) := by
  unfold MuxWF; infer_instance

/-- The initial value of the module-level state (all connections down,
registry empty). -/
def initialMuxState : MuxState :=
  { sharedWsClient := none, connectingPromise := false, isConnected := false,
    isAuthenticated := false, currentSubscriptions := [],
    pendingSubscriptions := [], subscribers := [], reconnectAttempts := 0,
    reconnectTimer := false, isAddingNewSubscription := false }

/-! ## Registry helper lemmas -/

theorem setAdd_nodup {α : Type} [DecidableEq α] {s : List α} (h : s.Nodup) (a : α) :
    (setAdd s a).Nodup := by
  unfold setAdd
  split
  · exact h
  · next hn => simp [List.nodup_append, h, hn]

/-- Occurrence count with the equality test fixed to the decidable-equality
instance, so every statement below counts with the same test. -/
def countOcc {α : Type} [DecidableEq α] (l : List α) (a : α) : Nat :=
  l.count a

theorem setAdd_count_self {α : Type} [DecidableEq α] {s : List α} (h : s.Nodup) (a : α) :
    countOcc (setAdd s a) a = 1 := by
  unfold countOcc setAdd
  split
  · next hm => exact List.count_eq_one_of_mem h hm
  · next hn =>
    simp [List.count_append, List.count_eq_zero.mpr hn]

theorem setDel_nodup {α : Type} [DecidableEq α] {s : List α} (h : s.Nodup) (a : α) :
    (setDel s a).Nodup :=
  h.filter _

theorem nodup_count_le_one {α : Type} [DecidableEq α] {l : List α} (h : l.Nodup) (a : α) :
    countOcc l a ≤ 1 :=
  List.nodup_iff_count_le_one.mp h a

theorem removeFirst_sublist {α : Type} [DecidableEq α] :
    ∀ (l : List α) (a : α), (removeFirst l a).Sublist l := by
  intro l a
  induction l with
  | nil => exact List.Sublist.refl _
  | cons b rest ih =>
    unfold removeFirst
    split
    · exact List.Sublist.cons _ (List.Sublist.refl _)
    · exact List.Sublist.cons₂ _ ih

theorem removeFirst_not_mem {α : Type} [DecidableEq α] :
    ∀ {l : List α}, l.Nodup → ∀ a : α, a ∉ removeFirst l a := by
  intro l
  induction l with
  | nil => intro _ a h; simp [removeFirst] at h
  | cons b rest ih =>
    intro hn a
    unfold removeFirst
    split
    · next he => exact fun hm => (List.nodup_cons.mp hn).1 (he ▸ hm)
    · next he =>
      intro hm
      rcases List.mem_cons.mp hm with h | h
      · exact he h.symm
      · exact ih (List.nodup_cons.mp hn).2 a h

theorem mapGet_mem {β : Type} :
    ∀ {m : List (List Char × β)} {k : List Char} {v : β},
      mapGet m k = some v → (k, v) ∈ m := by
  intro m
  induction m with
  | nil => intro k v h; simp [mapGet] at h
  | cons kv rest ih =>
    intro k v h
    unfold mapGet at h
    split at h
    · next he =>
      obtain ⟨k0, v0⟩ := kv
      obtain rfl : v0 = v := by injection h
      obtain rfl : k0 = k := he
      exact List.mem_cons_self _ _
    · exact List.mem_cons_of_mem _ (ih h)

theorem mapGet_mapSet_self {β : Type} :
    ∀ (m : List (List Char × β)) (k : List Char) (v : β),
      mapGet (mapSet m k v) k = some v := by
  intro m
  induction m with
  | nil => intro k v; simp [mapSet, mapGet]
  | cons kv rest ih =>
    intro k v
    unfold mapSet
    split
    · simp [mapGet]
    · next he => simp only [mapGet, he, if_false]; exact ih k v

theorem mapSet_mem {β : Type} :
    ∀ {m : List (List Char × β)} {k : List Char} {v : β} {kv : List Char × β},
      kv ∈ mapSet m k v → kv = (k, v) ∨ kv ∈ m := by
  intro m
  induction m with
  | nil => intro k v kv h; simp [mapSet] at h; exact Or.inl h
  | cons kv0 rest ih =>
    intro k v kv h
    unfold mapSet at h
    split at h
    · rcases List.mem_cons.mp h with h | h
      · exact Or.inl h
      · exact Or.inr (List.mem_cons_of_mem _ h)
    · rcases List.mem_cons.mp h with h | h
      · exact Or.inr (h ▸ List.mem_cons_self _ _)
      · rcases ih h with h | h
        · exact Or.inl h
        · exact Or.inr (List.mem_cons_of_mem _ h)

theorem processPendingLoop_nodup (okSet : List (List Char)) :
    ∀ (pend current : List (List Char)), current.Nodup →
      (processPendingLoop okSet current pend).1.Nodup := by
  intro pend
  induction pend with
  | nil => intro current h; exact h
  | cons sub rest ih =>
    intro current h
    unfold processPendingLoop
    split
    · exact ih current h
    · next hn =>
      split
      · exact ih (current ++ [sub]) (by simp [List.nodup_append, h, hn])
      · exact ih current h

theorem processPendingLoop_no_refresh (okSet : List (List Char)) :
    ∀ (pend current : List (List Char)) (a : List Char), a ∈ current →
      WsFrame.subscribeF a ∉ (processPendingLoop okSet current pend).2 := by
  intro pend
  induction pend with
  | nil => intro current a _ h; simp [processPendingLoop] at h
  | cons sub rest ih =>
    intro current a ha
    unfold processPendingLoop
    split
    · exact ih current a ha
    · next hn =>
      split
      · intro hm
        rcases List.mem_cons.mp hm with h | h
        · injection h with h'
          exact hn (h' ▸ ha)
        · exact ih (current ++ [sub]) a (List.mem_append_left _ ha) h
      · exact ih current a ha

theorem subscribeTicker_char (st : MuxState) (t : List Char) (cb : CallbackId)
    (sil ok : Bool) :
    (subscribeTicker st t cb sil ok).1.subscribers
        = mapSet st.subscribers (convertTickerFormat t)
            (setAdd ((mapGet st.subscribers (convertTickerFormat t)).getD []) cb)
      ∧ (if subscriptionParam (convertTickerFormat t) ∈ st.currentSubscriptions then
          (subscribeTicker st t cb sil ok).1.currentSubscriptions = st.currentSubscriptions
            ∧ (subscribeTicker st t cb sil ok).1.pendingSubscriptions = st.pendingSubscriptions
            ∧ (subscribeTicker st t cb sil ok).2 = []
        else
          ((subscribeTicker st t cb sil ok).1.currentSubscriptions = st.currentSubscriptions
              ∧ (subscribeTicker st t cb sil ok).2 = []
              ∧ (subscribeTicker st t cb sil ok).1.pendingSubscriptions
                  = setAdd st.pendingSubscriptions (subscriptionParam (convertTickerFormat t)))
            ∨ ((subscribeTicker st t cb sil ok).1.currentSubscriptions
                  = st.currentSubscriptions ++ [subscriptionParam (convertTickerFormat t)]
              ∧ (subscribeTicker st t cb sil ok).2
                  = [WsFrame.subscribeF (subscriptionParam (convertTickerFormat t))]
              ∧ (subscribeTicker st t cb sil ok).1.pendingSubscriptions
                  = setDel (setAdd st.pendingSubscriptions
                      (subscriptionParam (convertTickerFormat t)))
                      (subscriptionParam (convertTickerFormat t)))) := by
  cases sil <;> cases ok <;>
    simp only [subscribeTicker, setupWebSocket, Bool.false_eq_true, if_false, if_true] <;>
    split_ifs <;> simp_all

theorem subscribeTicker_wf (st : MuxState) (t : List Char) (cb : CallbackId)
    (sil ok : Bool) (hwf : MuxWF st) : MuxWF (subscribeTicker st t cb sil ok).1 := by
  obtain ⟨hc, hp, hs⟩ := hwf
  obtain ⟨hsubs, hrest⟩ := subscribeTicker_char st t cb sil ok
  have hsetnodup :
      (setAdd ((mapGet st.subscribers (convertTickerFormat t)).getD []) cb).Nodup := by
    cases hm : mapGet st.subscribers (convertTickerFormat t) with
    | none => simp [setAdd]
    | some s => exact setAdd_nodup (hs _ (mapGet_mem hm)) cb
  refine ⟨?_, ?_, ?_⟩
  · split at hrest
    · exact hrest.1 ▸ hc
    · rename_i hn
      rcases hrest with ⟨h1, _, _⟩ | ⟨h1, _, _⟩
      · exact h1 ▸ hc
      · rw [h1]; simp [List.nodup_append, hc, hn]
  · split at hrest
    · exact hrest.2.1 ▸ hp
    · rcases hrest with ⟨_, _, h1⟩ | ⟨_, _, h1⟩
      · exact h1 ▸ setAdd_nodup hp _
      · exact h1 ▸ setDel_nodup (setAdd_nodup hp _) _
  · rw [hsubs]
    intro kv hm
    rcases mapSet_mem hm with h | h
    · exact h ▸ hsetnodup
    · exact hs _ h

/-- C1: subscribing the same listener callback to the same ticker twice, in
any well-formed connection state, yields exactly one active upstream
subscription for that ticker: the subscriber set holds the callback exactly
once, the active list and the pending set each hold the subscription string
at most once, at most one subscribe frame is emitted across both calls, and
a subscription string that was already active is never sent again, appended
again, or re-sent by the pending-subscription flush. -/
theorem subscribe_same_listener_idempotent (st : MuxState) (t : List Char)
    (cb : CallbackId) (sil1 ok1 sil2 ok2 : Bool) (okSet : List (List Char))
    (hwf : MuxWF st) :
    (∃ s, mapGet (subscribeTicker (subscribeTicker st t cb sil1 ok1).1 t cb sil2 ok2).1.subscribers
        (convertTickerFormat t) = some s ∧ countOcc s cb = 1)
    ∧ countOcc (subscribeTicker (subscribeTicker st t cb sil1 ok1).1 t cb sil2 ok2).1.currentSubscriptions
        (subscriptionParam (convertTickerFormat t)) ≤ 1
    ∧ countOcc (subscribeTicker (subscribeTicker st t cb sil1 ok1).1 t cb sil2 ok2).1.pendingSubscriptions
        (subscriptionParam (convertTickerFormat t)) ≤ 1
    ∧ countOcc ((subscribeTicker st t cb sil1 ok1).2
        ++ (subscribeTicker (subscribeTicker st t cb sil1 ok1).1 t cb sil2 ok2).2)
        (WsFrame.subscribeF (subscriptionParam (convertTickerFormat t))) ≤ 1
    ∧ (subscriptionParam (convertTickerFormat t) ∈ st.currentSubscriptions →
        (subscribeTicker st t cb sil1 ok1).2 = []
        ∧ (subscribeTicker (subscribeTicker st t cb sil1 ok1).1 t cb sil2 ok2).2 = []
        ∧ (subscribeTicker (subscribeTicker st t cb sil1 ok1).1 t cb sil2 ok2).1.currentSubscriptions
            = st.currentSubscriptions
        ∧ WsFrame.subscribeF (subscriptionParam (convertTickerFormat t))
            ∉ (processPendingSubscriptions
                (subscribeTicker (subscribeTicker st t cb sil1 ok1).1 t cb sil2 ok2).1 okSet).2) := by
  have hwf1 := subscribeTicker_wf st t cb sil1 ok1 hwf
  have hwf2 := subscribeTicker_wf (subscribeTicker st t cb sil1 ok1).1 t cb sil2 ok2 hwf1
  obtain ⟨hsubs2, hrest2⟩ := subscribeTicker_char (subscribeTicker st t cb sil1 ok1).1 t cb sil2 ok2
  obtain ⟨hsubs1, hrest1⟩ := subscribeTicker_char st t cb sil1 ok1
  have hsetnodup :
      ((mapGet (subscribeTicker st t cb sil1 ok1).1.subscribers (convertTickerFormat t)).getD
        []).Nodup := by
    cases hm : mapGet (subscribeTicker st t cb sil1 ok1).1.subscribers (convertTickerFormat t) with
    | none => simp
    | some s => exact hwf1.2.2 _ (mapGet_mem hm)
  refine ⟨⟨_, by rw [hsubs2]; exact mapGet_mapSet_self _ _ _, setAdd_count_self hsetnodup cb⟩,
    nodup_count_le_one hwf2.1 _, nodup_count_le_one hwf2.2.1 _, ?_, ?_⟩
  · rw [countOcc, List.count_append]
    by_cases hmem : subscriptionParam (convertTickerFormat t) ∈ st.currentSubscriptions
    · rw [if_pos hmem] at hrest1
      have hmem1 : subscriptionParam (convertTickerFormat t)
          ∈ (subscribeTicker st t cb sil1 ok1).1.currentSubscriptions := hrest1.1 ▸ hmem
      rw [if_pos hmem1] at hrest2
      simp [hrest1.2.2, hrest2.2.2]
    · rw [if_neg hmem] at hrest1
      rcases hrest1 with ⟨hcur1, hf1, _⟩ | ⟨hcur1, hf1, _⟩
      · have hmem1 : subscriptionParam (convertTickerFormat t)
            ∉ (subscribeTicker st t cb sil1 ok1).1.currentSubscriptions := hcur1 ▸ hmem
        rw [if_neg hmem1] at hrest2
        rcases hrest2 with ⟨_, hf2, _⟩ | ⟨_, hf2, _⟩ <;> simp [hf1, hf2]
      · have hmem1 : subscriptionParam (convertTickerFormat t)
            ∈ (subscribeTicker st t cb sil1 ok1).1.currentSubscriptions := by
          rw [hcur1]; exact List.mem_append_right _ (List.mem_singleton.mpr rfl)
        rw [if_pos hmem1] at hrest2
        simp [hf1, hrest2.2.2]
  · intro hmem
    rw [if_pos hmem] at hrest1
    have hmem1 : subscriptionParam (convertTickerFormat t)
        ∈ (subscribeTicker st t cb sil1 ok1).1.currentSubscriptions := hrest1.1 ▸ hmem
    rw [if_pos hmem1] at hrest2
    have hcur2 : (subscribeTicker (subscribeTicker st t cb sil1 ok1).1 t cb sil2 ok2).1.currentSubscriptions
        = st.currentSubscriptions := by rw [hrest2.1, hrest1.1]
    refine ⟨hrest1.2.2, hrest2.2.2, hcur2, ?_⟩
    have hmem2 : subscriptionParam (convertTickerFormat t)
        ∈ (subscribeTicker (subscribeTicker st t cb sil1 ok1).1 t cb sil2 ok2).1.currentSubscriptions :=
      hcur2 ▸ hmem
    unfold processPendingSubscriptions
    split
    · exact processPendingLoop_no_refresh okSet _ _ _ hmem2
    · simp

/-- C1 (witness): the idempotence theorem applied to the empty initial state
and the raw ticker `"ETHUSD"`. -/
theorem subscribe_same_listener_idempotent_witness :
    MuxWF initialMuxState
    ∧ ((∃ s, mapGet (subscribeTicker (subscribeTicker initialMuxState "ETHUSD".data 7 false true).1
          "ETHUSD".data 7 false true).1.subscribers
          (convertTickerFormat "ETHUSD".data) = some s ∧ countOcc s 7 = 1)
      ∧ countOcc (subscribeTicker (subscribeTicker initialMuxState "ETHUSD".data 7 false true).1
          "ETHUSD".data 7 false true).1.currentSubscriptions
          (subscriptionParam (convertTickerFormat "ETHUSD".data)) ≤ 1
      ∧ countOcc (subscribeTicker (subscribeTicker initialMuxState "ETHUSD".data 7 false true).1
          "ETHUSD".data 7 false true).1.pendingSubscriptions
          (subscriptionParam (convertTickerFormat "ETHUSD".data)) ≤ 1
      ∧ countOcc ((subscribeTicker initialMuxState "ETHUSD".data 7 false true).2
          ++ (subscribeTicker (subscribeTicker initialMuxState "ETHUSD".data 7 false true).1
              "ETHUSD".data 7 false true).2)
          (WsFrame.subscribeF (subscriptionParam (convertTickerFormat "ETHUSD".data))) ≤ 1
      ∧ (subscriptionParam (convertTickerFormat "ETHUSD".data)
            ∈ initialMuxState.currentSubscriptions →
          (subscribeTicker initialMuxState "ETHUSD".data 7 false true).2 = []
          ∧ (subscribeTicker (subscribeTicker initialMuxState "ETHUSD".data 7 false true).1
              "ETHUSD".data 7 false true).2 = []
          ∧ (subscribeTicker (subscribeTicker initialMuxState "ETHUSD".data 7 false true).1
              "ETHUSD".data 7 false true).1.currentSubscriptions
              = initialMuxState.currentSubscriptions
          ∧ WsFrame.subscribeF (subscriptionParam (convertTickerFormat "ETHUSD".data))
              ∉ (processPendingSubscriptions
                  (subscribeTicker (subscribeTicker initialMuxState "ETHUSD".data 7 false true).1
                    "ETHUSD".data 7 false true).1 []).2)) :=
  ⟨by decide,
    subscribe_same_listener_idempotent initialMuxState "ETHUSD".data 7 false true false true []
      (by decide)⟩

/-- C2: with two distinct listeners registered for the same canonical ticker,
unsubscribing the first sends no unsubscribe frame and leaves the upstream
subscription and the connection intact; unsubscribing the second sends
exactly one unsubscribe frame when the send succeeds and none when it throws,
but drops the subscription from local tracking either way; and when no
listeners remain for any ticker the connection is torn down entirely
(client closed, registry and subscription lists cleared). -/
theorem unsubscribe_last_listener (st : MuxState) (t : List Char)
    (cb1 cb2 : CallbackId) (ok1 ok2 : Bool)
    (rest : List (List Char × List CallbackId))
    (hsubs : st.subscribers = (convertTickerFormat t, [cb1, cb2]) :: rest)
    (hne : cb1 ≠ cb2)
    (hready : st.sharedWsClient = some 1)
    (hauth : st.isAuthenticated = true)
    (hcur : subscriptionParam (convertTickerFormat t) ∈ st.currentSubscriptions)
    (hnodup : st.currentSubscriptions.Nodup) :
    (unsubscribeTicker st t cb1 ok1).2 = []
    ∧ (unsubscribeTicker st t cb1 ok1).1.currentSubscriptions = st.currentSubscriptions
    ∧ (unsubscribeTicker st t cb1 ok1).1.sharedWsClient = st.sharedWsClient
    ∧ (unsubscribeTicker st t cb1 ok1).1.subscribers = (convertTickerFormat t, [cb2]) :: rest
    ∧ subscriptionParam (convertTickerFormat t)
        ∉ (unsubscribeTicker (unsubscribeTicker st t cb1 ok1).1 t cb2 ok2).1.currentSubscriptions
    ∧ (rest = [] →
        (unsubscribeTicker (unsubscribeTicker st t cb1 ok1).1 t cb2 ok2).2
            = (if ok2 then
                [WsFrame.unsubscribeF (subscriptionParam (convertTickerFormat t)), WsFrame.closeF]
              else [WsFrame.closeF])
        ∧ (unsubscribeTicker (unsubscribeTicker st t cb1 ok1).1 t cb2 ok2).1.sharedWsClient = none
        ∧ (unsubscribeTicker (unsubscribeTicker st t cb1 ok1).1 t cb2 ok2).1.subscribers = []
        ∧ (unsubscribeTicker (unsubscribeTicker st t cb1 ok1).1 t cb2 ok2).1.currentSubscriptions = []
        ∧ (unsubscribeTicker (unsubscribeTicker st t cb1 ok1).1 t cb2 ok2).1.pendingSubscriptions = [])
    ∧ (rest ≠ [] →
        (unsubscribeTicker (unsubscribeTicker st t cb1 ok1).1 t cb2 ok2).2
            = (if ok2 then [WsFrame.unsubscribeF (subscriptionParam (convertTickerFormat t))]
              else [])
        ∧ (unsubscribeTicker (unsubscribeTicker st t cb1 ok1).1 t cb2 ok2).1.sharedWsClient = some 1
        ∧ (unsubscribeTicker (unsubscribeTicker st t cb1 ok1).1 t cb2 ok2).1.subscribers = rest
        ∧ (unsubscribeTicker (unsubscribeTicker st t cb1 ok1).1 t cb2 ok2).1.currentSubscriptions
            = removeFirst st.currentSubscriptions (subscriptionParam (convertTickerFormat t))) := by
  have hset1 : setDel [cb1, cb2] cb1 = [cb2] := by
    simp [setDel, Ne.symm hne]
  have hset2 : setDel [cb2] cb2 = ([] : List CallbackId) := by
    simp [setDel]
  have h1 : unsubscribeTicker st t cb1 ok1
      = ({ st with
            pendingSubscriptions :=
              setDel st.pendingSubscriptions (subscriptionParam (convertTickerFormat t)),
            subscribers := (convertTickerFormat t, [cb2]) :: rest }, []) := by
    simp only [unsubscribeTicker, hsubs]
    simp [mapGet, mapSet, hset1]
  have h2 : unsubscribeTicker (unsubscribeTicker st t cb1 ok1).1 t cb2 ok2
      = (if rest.length = 0 then
          ({ st with
              sharedWsClient := none, isConnected := false, isAuthenticated := false,
              currentSubscriptions := [], pendingSubscriptions := [],
              subscribers := rest, reconnectAttempts := 0,
              isAddingNewSubscription := false, reconnectTimer := false },
            if ok2 then
              [WsFrame.unsubscribeF (subscriptionParam (convertTickerFormat t)), WsFrame.closeF]
            else [WsFrame.closeF])
        else
          ({ st with
              pendingSubscriptions :=
                setDel (setDel st.pendingSubscriptions (subscriptionParam (convertTickerFormat t)))
                  (subscriptionParam (convertTickerFormat t)),
              subscribers := rest,
              currentSubscriptions :=
                removeFirst st.currentSubscriptions (subscriptionParam (convertTickerFormat t)) },
            if ok2 then [WsFrame.unsubscribeF (subscriptionParam (convertTickerFormat t))]
            else [])) := by
    rw [h1]
    simp only [unsubscribeTicker]
    simp [mapGet, mapDel, hset2, hready, hauth, hcur]
    split <;> split <;> simp
  refine ⟨by rw [h1], by rw [h1], by rw [h1], by rw [h1], ?_, ?_, ?_⟩
  · rw [h2]
    by_cases hr : rest.length = 0
    · simp [hr]
    · rw [if_neg hr]
      simpa using removeFirst_not_mem hnodup _
  · intro hrest
    subst hrest
    rw [h2]
    simp
  · intro hrest
    have hr : ¬ rest.length = 0 := by
      simpa [List.length_eq_zero] using hrest
    rw [h2]
    simp [hr, hready]

/-- A ready connection whose registry holds listeners 1 and 2 for
`BTC-USD`, `XT.BTC-USD` being the single active upstream subscription. -/
def muxTwoListeners : MuxState :=
  { initialMuxState with
      sharedWsClient := some 1, isConnected := true, isAuthenticated := true,
      currentSubscriptions := ["XT.BTC-USD".data],
      subscribers := [("BTC-USD".data, [1, 2])] }

/-- C2 (witness): the unsubscribe theorem applied to `muxTwoListeners` with
raw ticker `"BTC-USD"`, both sends succeeding. -/
theorem unsubscribe_last_listener_witness :
    (muxTwoListeners.subscribers
        = (convertTickerFormat "BTC-USD".data, [1, 2]) :: []
      ∧ (1 : CallbackId) ≠ 2
      ∧ muxTwoListeners.sharedWsClient = some 1
      ∧ muxTwoListeners.isAuthenticated = true
      ∧ subscriptionParam (convertTickerFormat "BTC-USD".data)
          ∈ muxTwoListeners.currentSubscriptions
      ∧ muxTwoListeners.currentSubscriptions.Nodup)
    ∧ ((unsubscribeTicker muxTwoListeners "BTC-USD".data 1 true).2 = []
      ∧ (unsubscribeTicker muxTwoListeners "BTC-USD".data 1 true).1.currentSubscriptions
          = muxTwoListeners.currentSubscriptions
      ∧ (unsubscribeTicker muxTwoListeners "BTC-USD".data 1 true).1.sharedWsClient
          = muxTwoListeners.sharedWsClient
      ∧ (unsubscribeTicker muxTwoListeners "BTC-USD".data 1 true).1.subscribers
          = (convertTickerFormat "BTC-USD".data, [2]) :: []
      ∧ subscriptionParam (convertTickerFormat "BTC-USD".data)
          ∉ (unsubscribeTicker (unsubscribeTicker muxTwoListeners "BTC-USD".data 1 true).1
              "BTC-USD".data 2 true).1.currentSubscriptions
      ∧ (([] : List (List Char × List CallbackId)) = [] →
          (unsubscribeTicker (unsubscribeTicker muxTwoListeners "BTC-USD".data 1 true).1
              "BTC-USD".data 2 true).2
              = (if true then
                  [WsFrame.unsubscribeF (subscriptionParam (convertTickerFormat "BTC-USD".data)),
                    WsFrame.closeF]
                else [WsFrame.closeF])
          ∧ (unsubscribeTicker (unsubscribeTicker muxTwoListeners "BTC-USD".data 1 true).1
              "BTC-USD".data 2 true).1.sharedWsClient = none
          ∧ (unsubscribeTicker (unsubscribeTicker muxTwoListeners "BTC-USD".data 1 true).1
              "BTC-USD".data 2 true).1.subscribers = []
          ∧ (unsubscribeTicker (unsubscribeTicker muxTwoListeners "BTC-USD".data 1 true).1
              "BTC-USD".data 2 true).1.currentSubscriptions = []
          ∧ (unsubscribeTicker (unsubscribeTicker muxTwoListeners "BTC-USD".data 1 true).1
              "BTC-USD".data 2 true).1.pendingSubscriptions = [])
      ∧ (([] : List (List Char × List CallbackId)) ≠ [] →
          (unsubscribeTicker (unsubscribeTicker muxTwoListeners "BTC-USD".data 1 true).1
              "BTC-USD".data 2 true).2
              = (if true then
                  [WsFrame.unsubscribeF (subscriptionParam (convertTickerFormat "BTC-USD".data))]
                else [])
          ∧ (unsubscribeTicker (unsubscribeTicker muxTwoListeners "BTC-USD".data 1 true).1
              "BTC-USD".data 2 true).1.sharedWsClient = some 1
          ∧ (unsubscribeTicker (unsubscribeTicker muxTwoListeners "BTC-USD".data 1 true).1
              "BTC-USD".data 2 true).1.subscribers = []
          ∧ (unsubscribeTicker (unsubscribeTicker muxTwoListeners "BTC-USD".data 1 true).1
              "BTC-USD".data 2 true).1.currentSubscriptions
              = removeFirst muxTwoListeners.currentSubscriptions
                  (subscriptionParam (convertTickerFormat "BTC-USD".data)))) :=
  ⟨by decide,
    unsubscribe_last_listener muxTwoListeners "BTC-USD".data 1 2 true true []
      rfl (by decide) rfl rfl (by decide) (by decide)⟩

/-- C3: after an unexpected transport close with at least one subscriber and
fewer than `maxReconnectAttempts` (5) prior attempts, a reconnect is
scheduled with delay `min (1000·2^k) 30000` where `k` is the prior attempt
count — 1000 ms for the first attempt, doubling each subsequent attempt,
capped — and the counter is incremented; once 5 attempts have been made no
further reconnect is ever scheduled and the connection stays down; the
explicit `reconnect()` call resets the attempt counter and cancels any
scheduled timer. -/
theorem close_reconnect_backoff (st : MuxState) :
    (0 < st.subscribers.length → st.reconnectAttempts < maxReconnectAttempts →
      (handleClose st).2 = some (min (1000 * 2 ^ st.reconnectAttempts) 30000)
      ∧ (handleClose st).1.reconnectAttempts = st.reconnectAttempts + 1
      ∧ (handleClose st).1.reconnectTimer = true
      ∧ (handleClose st).1.sharedWsClient = none)
    ∧ (0 < st.subscribers.length → st.reconnectAttempts = 0 →
        (handleClose st).2 = some 1000)
    ∧ (maxReconnectAttempts ≤ st.reconnectAttempts →
        (handleClose st).2 = none
        ∧ (handleClose st).1.sharedWsClient = none
        ∧ (handleClose st).1.reconnectAttempts = st.reconnectAttempts
        ∧ (handleClose st).1.reconnectTimer = st.reconnectTimer)
    ∧ (reconnect st).reconnectAttempts = 0
    ∧ (reconnect st).reconnectTimer = false := by
  refine ⟨?_, ?_, ?_, ?_, ?_⟩
  · intro hs hm
    unfold handleClose
    rw [if_pos ⟨hs, hm⟩]
    simp
  · intro hs hz
    unfold handleClose
    rw [if_pos ⟨hs, by rw [hz]; decide⟩]
    simp [hz]
  · intro hm
    unfold handleClose
    rw [if_neg (fun hand => absurd hand.2 (not_lt.mpr hm))]
    simp
  · unfold reconnect setupWebSocket
    simp [apply_ite MuxState.reconnectAttempts]
  · unfold reconnect setupWebSocket
    simp [apply_ite MuxState.reconnectTimer]

/-- A connected state with one subscriber and two reconnect attempts already
made. -/
def muxBackoff : MuxState :=
  { initialMuxState with
      sharedWsClient := some 1, isConnected := true, isAuthenticated := true,
      currentSubscriptions := ["XT.BTC-USD".data],
      subscribers := [("BTC-USD".data, [1])], reconnectAttempts := 2 }

/-- C3 (witness): the backoff theorem applied to a state with two prior
attempts (third delay is 4000 ms) and to a state that exhausted the five
attempts (nothing scheduled), plus the counter reset of `reconnect()`. -/
theorem close_reconnect_backoff_witness :
    (handleClose muxBackoff).2 = some 4000
    ∧ (handleClose { muxBackoff with reconnectAttempts := 5 }).2 = none
    ∧ (reconnect { muxBackoff with reconnectAttempts := 5 }).reconnectAttempts = 0 := by
  refine ⟨?_, ?_, ?_⟩
  · have h := (close_reconnect_backoff muxBackoff).1 (by decide) (by decide)
    simpa using h.1
  · exact ((close_reconnect_backoff { muxBackoff with reconnectAttempts := 5 }).2.2.1
      (by decide)).1
  · exact (close_reconnect_backoff { muxBackoff with reconnectAttempts := 5 }).2.2.2.1

/-! ## Widget dashboard layout manager (the `FlexibleDashboard` component)

Widgets, their fixed templates, and the collection operations `addWidget`,
`removeWidget`, `moveWidget`, `resizeWidget`, `toggleMaximize`. Pixel
coordinates are integers. -/

/-- The widget kinds (the `WidgetType` union type). -/
inductive WidgetType where
  | stats | chart | activity | finance
  | cryptoSurface | stockSurface | cryptoCandle | stockCandle | news
deriving DecidableEq

/-- A pixel position (the `position` field). -/
structure Pos where
  x : Int
  y : Int
deriving DecidableEq

/-- A pixel size (the `size` field). -/
structure Size where
  width : Int
  height : Int
deriving DecidableEq

/-- The `Widget` interface: `description` and `isMaximized` are optional. -/
structure Widget where
  id : List Char
  type : WidgetType
  title : List Char
  description : Option (List Char)
  position : Pos
  size : Size
  isMaximized : Option Bool
deriving DecidableEq

/-- The `type` discriminator string of each kind, as it appears in the
source and in persisted JSON. -/
def widgetTypeStr : WidgetType → List Char
  | .stats => "stats".data
  | .chart => "chart".data
  | .activity => "activity".data
  | .finance => "finance".data
  | .cryptoSurface => "crypto-surface".data
  | .stockSurface => "stock-surface".data
  | .cryptoCandle => "crypto-candle".data
  | .stockCandle => "stock-candle".data
  | .news => "news".data

/-- `WIDGET_TEMPLATES`: per kind, the fixed title, description and default
size used by `addWidget`. -/
def WIDGET_TEMPLATES : WidgetType → List Char × List Char × Size
  | .stats => ("Quick Stats".data, "Overview of key metrics".data, ⟨300, 200⟩)
  | .chart => ("Performance Chart".data, "Visual representation of data".data, ⟨500, 300⟩)
  | .activity => ("Recent Activity".data, "Latest actions and updates".data, ⟨400, 300⟩)
  | .finance => ("Financial Overview".data, "Summary of financial data".data, ⟨400, 300⟩)
  | .cryptoSurface =>
    ("Crypto 3D Surface".data, "3D visualization of cryptocurrency price data".data, ⟨500, 400⟩)
  | .stockSurface =>
    ("Stock 3D Surface".data, "3D visualization of stock price data".data, ⟨500, 400⟩)
  | .cryptoCandle =>
    ("Crypto Candlestick".data, "Real-time cryptocurrency candlestick chart".data, ⟨500, 400⟩)
  | .stockCandle =>
    ("Stock Candlestick".data, "Real-time stock market candlestick chart".data, ⟨500, 400⟩)
  | .news => ("Financial News".data, "Latest financial news and updates".data, ⟨400, 300⟩)

/-- Decimal digit character for a value below ten (greater values clamp to
`'9'`; all call sites pass remainders modulo ten). -/
def digitToChar : Nat → Char
  | 0 => '0' | 1 => '1' | 2 => '2' | 3 => '3' | 4 => '4'
  | 5 => '5' | 6 => '6' | 7 => '7' | 8 => '8' | _ => '9'

/-- Fuelled most-significant-first decimal digit expansion (the fuel bounds
the number of divisions; any fuel at least the value itself suffices). -/
def natDigitsAux : Nat → Nat → List Char
  | 0, _ => []
  | fuel + 1, n =>
    if n = 0 then [] else natDigitsAux fuel (n / 10) ++ [digitToChar (n % 10)]

/-- Decimal rendering of a natural number, as JavaScript string conversion
produces it. -/
def natToDigits (value : Nat) : List Char :=
  if value = 0 then ['0'] else natDigitsAux value value

/-- Decimal rendering of an integer (minus sign plus digits). -/
def intToChars (n : Int) : List Char :=
  if n < 0 then '-' :: natToDigits (-n).toNat else natToDigits n.toNat

/-- The fresh widget id `` `widget-${Date.now()}` `` for a clock value. -/
def widgetId (now : Nat) : List Char :=
  "widget-".data ++ natToDigits now

/-- Embedding of `addWidget`: instantiate the template for the kind, give it
the time-derived id, center it horizontally in the measured dashboard
container (y fixed at 100, both clamped non-negative), or fall back to the
fixed offset (50, 100) when the container cannot be measured; append. `now`
is the clock value and `rectWidth` the measured container width. -/
def addWidget (widgets : List Widget) (ty : WidgetType) (now : Nat)
    (rectWidth : Option Int) : List Widget :=
  let tpl := WIDGET_TEMPLATES ty
  match rectWidth with
  | some rw =>
    widgets ++ [{ id := widgetId now, type := ty, title := tpl.1,
                  description := some tpl.2.1,
                  position := ⟨max 0 ((rw - tpl.2.2.width) / 2), max 0 100⟩,
                  size := tpl.2.2, isMaximized := none }]
  | none =>
    widgets ++ [{ id := widgetId now, type := ty, title := tpl.1,
                  description := some tpl.2.1,
                  position := ⟨50, 100⟩,
                  size := tpl.2.2, isMaximized := none }]

/-- Embedding of `removeWidget`: keep the widgets whose id differs. -/
def removeWidget (widgets : List Widget) (id : List Char) : List Widget :=
  widgets.filter (fun w => w.id ≠ id)

/-- Embedding of `moveWidget`: clamp both coordinates at zero and replace
the stored position of the widget with that id. -/
def moveWidget (widgets : List Widget) (id : List Char) (x y : Int) : List Widget :=
  widgets.map (fun w => if w.id = id then { w with position := ⟨max 0 x, max 0 y⟩ } else w)

/-- Embedding of `resizeWidget`: replace the stored size of the widget with
that id, with no clamping at this layer. -/
def resizeWidget (widgets : List Widget) (id : List Char) (width height : Int) : List Widget :=
  widgets.map (fun w => if w.id = id then { w with size := ⟨width, height⟩ } else w)

/-- Embedding of `toggleMaximize`: negate the (optional, default-false)
maximized flag of the widget with that id. -/
def toggleMaximize (widgets : List Widget) (id : List Char) : List Widget :=
  widgets.map (fun w =>
    if w.id = id then { w with isMaximized := some (! w.isMaximized.getD false) } else w)

/-! ## Claims C4 and C5 -/

/-- C4: after `moveWidget(id, x, y)` — for inputs of any sign — the length
is unchanged, every widget carrying that id stores exactly
`(max 0 x, max 0 y)` (hence non-negative coordinates) with all other fields
intact, and the widgets at positions whose id differs are unchanged. -/
theorem moveWidget_clamps (widgets : List Widget) (id : List Char) (x y : Int) :
    (moveWidget widgets id x y).length = widgets.length
    ∧ (∀ w ∈ moveWidget widgets id x y, w.id = id →
        w.position = ⟨max 0 x, max 0 y⟩ ∧ 0 ≤ w.position.x ∧ 0 ≤ w.position.y)
    ∧ (∀ w0 ∈ widgets, w0.id = id →
        { w0 with position := ⟨max 0 x, max 0 y⟩ } ∈ moveWidget widgets id x y)
    ∧ (∀ i (h : i < widgets.length) (h' : i < (moveWidget widgets id x y).length),
        (widgets.get ⟨i, h⟩).id ≠ id →
          (moveWidget widgets id x y).get ⟨i, h'⟩ = widgets.get ⟨i, h⟩) := by
  refine ⟨by simp [moveWidget], ?_, ?_, ?_⟩
  · intro w hw hid
    rcases List.mem_map.mp hw with ⟨w0, hw0, rfl⟩
    by_cases h0 : w0.id = id
    · rw [if_pos h0]
      exact ⟨rfl, le_max_left 0 x, le_max_left 0 y⟩
    · rw [if_neg h0] at hid
      exact absurd hid h0
  · intro w0 hw0 hid
    exact List.mem_map.mpr ⟨w0, hw0, by simp [hid]⟩
  · intro i h h' hid
    simp only [List.get_eq_getElem] at hid ⊢
    simp only [moveWidget, List.getElem_map]
    rw [if_neg hid]

/-- A concrete widget collection satisfying the non-negativity invariant. -/
def demoWidget : Widget :=
  { id := "widget-1".data, type := .chart, title := "Performance Chart".data,
    description := some "Visual representation of data".data,
    position := ⟨50, 100⟩, size := ⟨500, 300⟩, isMaximized := none }

/-- C5 (counterexample): `resizeWidget` performs no clamping, so calling it
with negative arguments on an invariant-satisfying collection leaves a
widget with negative width and height — the invariant is not preserved by
every layout operation for arbitrary numeric arguments. -/
theorem resizeWidget_negative_counterexample :
    (∀ w ∈ [demoWidget],
      0 ≤ w.position.x ∧ 0 ≤ w.position.y ∧ 0 ≤ w.size.width ∧ 0 ≤ w.size.height)
    ∧ ¬ (∀ w ∈ resizeWidget [demoWidget] "widget-1".data (-5) (-7),
      0 ≤ w.position.x ∧ 0 ≤ w.position.y ∧ 0 ≤ w.size.width ∧ 0 ≤ w.size.height) := by
  decide

/-- The non-negativity invariant on a widget's stored position and size. -/
def WidgetInv (w : Widget) : Prop :=
  0 ≤ w.position.x ∧ 0 ≤ w.position.y ∧ 0 ≤ w.size.width ∧ 0 ≤ w.size.height

instance (w : Widget) : Decidable (WidgetInv w) := by
  unfold WidgetInv; infer_instance

/-- C5 (amended): the non-negativity invariant is preserved by `addWidget`,
`removeWidget`, `moveWidget` and `toggleMaximize` for arbitrary (possibly
negative) arguments, and by `resizeWidget` under the non-negative-size
precondition that the resize gesture layer establishes via its minimum-size
clamping; it is not preserved by `resizeWidget` for arbitrary negative
arguments. -/
theorem layout_ops_preserve_invariant (widgets : List Widget)
    (hinv : ∀ w ∈ widgets, WidgetInv w) :
    (∀ ty now rw, ∀ w ∈ addWidget widgets ty now rw, WidgetInv w)
    ∧ (∀ id, ∀ w ∈ removeWidget widgets id, WidgetInv w)
    ∧ (∀ id x y, ∀ w ∈ moveWidget widgets id x y, WidgetInv w)
    ∧ (∀ id, ∀ w ∈ toggleMaximize widgets id, WidgetInv w)
    ∧ (∀ id width height, 0 ≤ width → 0 ≤ height →
        ∀ w ∈ resizeWidget widgets id width height, WidgetInv w) := by
  have htpl : ∀ ty : WidgetType,
      0 ≤ (WIDGET_TEMPLATES ty).2.2.width ∧ 0 ≤ (WIDGET_TEMPLATES ty).2.2.height := by
    intro ty; cases ty <;> decide
  refine ⟨?_, ?_, ?_, ?_, ?_⟩
  · intro ty now rw w hw
    cases rw with
    | some rwv =>
      rcases List.mem_append.mp hw with h | h
      · exact hinv w h
      · rcases List.mem_singleton.mp h with rfl
        exact ⟨le_max_left _ _, le_max_left _ _, (htpl ty).1, (htpl ty).2⟩
    | none =>
      rcases List.mem_append.mp hw with h | h
      · exact hinv w h
      · rcases List.mem_singleton.mp h with rfl
        exact ⟨by norm_num, by norm_num, (htpl ty).1, (htpl ty).2⟩
  · intro id w hw
    exact hinv w (List.mem_of_mem_filter hw)
  · intro id x y w hw
    rcases List.mem_map.mp hw with ⟨w0, hw0, rfl⟩
    by_cases h0 : w0.id = id
    · simp only [h0, if_true]
      exact ⟨le_max_left _ _, le_max_left _ _, (hinv w0 hw0).2.2.1, (hinv w0 hw0).2.2.2⟩
    · simpa [h0] using hinv w0 hw0
  · intro id w hw
    rcases List.mem_map.mp hw with ⟨w0, hw0, rfl⟩
    by_cases h0 : w0.id = id
    · simp only [h0, if_true]
      exact ⟨(hinv w0 hw0).1, (hinv w0 hw0).2.1, (hinv w0 hw0).2.2.1, (hinv w0 hw0).2.2.2⟩
    · simpa [h0] using hinv w0 hw0
  · intro id width height hwd hht w hw
    rcases List.mem_map.mp hw with ⟨w0, hw0, rfl⟩
    by_cases h0 : w0.id = id
    · simp only [h0, if_true]
      exact ⟨(hinv w0 hw0).1, (hinv w0 hw0).2.1, hwd, hht⟩
    · simpa [h0] using hinv w0 hw0

/-- C5 (witness): the amended invariant-preservation theorem applied to the
one-widget demo collection, sampled at `moveWidget` with negative inputs and
`resizeWidget` with non-negative inputs. -/
theorem layout_ops_preserve_invariant_witness :
    (∀ w ∈ [demoWidget], WidgetInv w)
    ∧ (∀ w ∈ moveWidget [demoWidget] "widget-1".data (-3) (-4), WidgetInv w)
    ∧ (∀ w ∈ resizeWidget [demoWidget] "widget-1".data 200 150, WidgetInv w) :=
  ⟨by decide,
    (layout_ops_preserve_invariant [demoWidget] (by decide)).2.2.1 "widget-1".data (-3) (-4),
    (layout_ops_preserve_invariant [demoWidget] (by decide)).2.2.2.2 "widget-1".data 200 150
      (by decide) (by decide)⟩

/-- C4 (witness): the clamping theorem applied to the demo collection with a
negative x input. -/
theorem moveWidget_clamps_witness :
    (moveWidget [demoWidget] "widget-1".data (-30) 40).length = ([demoWidget] : List Widget).length
    ∧ (∀ w ∈ moveWidget [demoWidget] "widget-1".data (-30) 40, w.id = "widget-1".data →
        w.position = ⟨max 0 (-30), max 0 40⟩ ∧ 0 ≤ w.position.x ∧ 0 ≤ w.position.y) :=
  ⟨(moveWidget_clamps [demoWidget] "widget-1".data (-30) 40).1,
    (moveWidget_clamps [demoWidget] "widget-1".data (-30) 40).2.1⟩

/-! ## Resize gesture geometry (src/components/ui/flexiblecard.tsx) -/

/-- The eight resize directions of the card's corner and edge handles. -/
inductive ResizeDir where
  | n | s | e | w | ne | nw | se | sw
deriving DecidableEq

/-- The direction string passed to `handleResizeStart`; the code queries it
with `includes('e')` etc., modelled below as character membership. -/
def dirChars : ResizeDir → List Char
  | .n => ['n']
  | .s => ['s']
  | .e => ['e']
  | .w => ['w']
  | .ne => ['n', 'e']
  | .nw => ['n', 'w']
  | .se => ['s', 'e']
  | .sw => ['s', 'w']

/-- The gesture baseline captured on pointer-down (the `dragStart` state):
pointer origin, element position and element size. -/
structure DragStart where
  mouseX : Int
  mouseY : Int
  elementX : Int
  elementY : Int
  width : Int
  height : Int
deriving DecidableEq

/-- Embedding of the resizing branch of `handleMouseMove` (flexiblecard.tsx
lines 76–123): deltas from the pointer origin; east/south grow the
dimension, west/north shrink-grow it and shift the position by
(old dimension − new dimension) when it changed; every changed dimension is
clamped at the configured minimum. Returns
(newWidth, newHeight, newX, newY). -/
def handleMouseMove (minWidth minHeight : Int) (dragStart : DragStart)
    (d : ResizeDir) (clientX clientY : Int) : Int × Int × Int × Int :=
  let deltaX := clientX - dragStart.mouseX
  let deltaY := clientY - dragStart.mouseY
  let newWidth1 := if 'e' ∈ dirChars d then max minWidth (dragStart.width + deltaX)
                   else dragStart.width
  let newHeight1 := if 's' ∈ dirChars d then max minHeight (dragStart.height + deltaY)
                    else dragStart.height
  let wWidth := max minWidth (dragStart.width - deltaX)
  let newWidth := if 'w' ∈ dirChars d then wWidth else newWidth1
  let newX := if 'w' ∈ dirChars d ∧ wWidth ≠ dragStart.width
              then dragStart.elementX + (dragStart.width - wWidth)
              else dragStart.elementX
  let nHeight := max minHeight (dragStart.height - deltaY)
  let newHeight := if 'n' ∈ dirChars d then nHeight else newHeight1
  let newY := if 'n' ∈ dirChars d ∧ nHeight ≠ dragStart.height
              then dragStart.elementY + (dragStart.height - nHeight)
              else dragStart.elementY
  (newWidth, newHeight, newX, newY)

/-- C6: for every resize direction and pointer movement, starting from a
baseline respecting the minimums: the resulting width and height never fall
below `minWidth`/`minHeight`; only the edges named by the direction move
(no `w` in the direction keeps x fixed, no `n` keeps y fixed, neither `e`
nor `w` keeps the width, neither `s` nor `n` keeps the height); and when the
west (resp. north) edge moves, x (resp. y) equals the old value plus
(old dimension − new dimension), so the opposite edge x + width
(resp. y + height) is unchanged. -/
theorem resize_respects_minimums (minWidth minHeight : Int) (ds : DragStart)
    (d : ResizeDir) (cx cy : Int)
    (hw : minWidth ≤ ds.width) (hh : minHeight ≤ ds.height) :
    minWidth ≤ (handleMouseMove minWidth minHeight ds d cx cy).1
    ∧ minHeight ≤ (handleMouseMove minWidth minHeight ds d cx cy).2.1
    ∧ ('w' ∉ dirChars d →
        (handleMouseMove minWidth minHeight ds d cx cy).2.2.1 = ds.elementX)
    ∧ ('n' ∉ dirChars d →
        (handleMouseMove minWidth minHeight ds d cx cy).2.2.2 = ds.elementY)
    ∧ ('e' ∉ dirChars d → 'w' ∉ dirChars d →
        (handleMouseMove minWidth minHeight ds d cx cy).1 = ds.width)
    ∧ ('s' ∉ dirChars d → 'n' ∉ dirChars d →
        (handleMouseMove minWidth minHeight ds d cx cy).2.1 = ds.height)
    ∧ ('w' ∈ dirChars d →
        (handleMouseMove minWidth minHeight ds d cx cy).2.2.1
            = ds.elementX + (ds.width - (handleMouseMove minWidth minHeight ds d cx cy).1)
        ∧ (handleMouseMove minWidth minHeight ds d cx cy).2.2.1
            + (handleMouseMove minWidth minHeight ds d cx cy).1
            = ds.elementX + ds.width)
    ∧ ('n' ∈ dirChars d →
        (handleMouseMove minWidth minHeight ds d cx cy).2.2.2
            = ds.elementY + (ds.height - (handleMouseMove minWidth minHeight ds d cx cy).2.1)
        ∧ (handleMouseMove minWidth minHeight ds d cx cy).2.2.2
            + (handleMouseMove minWidth minHeight ds d cx cy).2.1
            = ds.elementY + ds.height) := by
  cases d <;>
    simp [handleMouseMove, dirChars, max_def] <;>
    split_ifs <;>
    omega

/-- C6 (witness): the resize theorem applied to a north-west drag far past
the minimum sizes. -/
theorem resize_respects_minimums_witness :
    ((200 : Int) ≤ (500 : Int) ∧ (150 : Int) ≤ (400 : Int))
    ∧ (200 : Int) ≤ (handleMouseMove 200 150 ⟨0, 0, 300, 200, 500, 400⟩ .nw 1000 900).1
    ∧ (150 : Int) ≤ (handleMouseMove 200 150 ⟨0, 0, 300, 200, 500, 400⟩ .nw 1000 900).2.1
    ∧ ('w' ∈ dirChars .nw →
        (handleMouseMove 200 150 ⟨0, 0, 300, 200, 500, 400⟩ .nw 1000 900).2.2.1
            = 300 + ((500 : Int)
                - (handleMouseMove 200 150 ⟨0, 0, 300, 200, 500, 400⟩ .nw 1000 900).1)
        ∧ (handleMouseMove 200 150 ⟨0, 0, 300, 200, 500, 400⟩ .nw 1000 900).2.2.1
            + (handleMouseMove 200 150 ⟨0, 0, 300, 200, 500, 400⟩ .nw 1000 900).1
            = 300 + 500) :=
  ⟨⟨by norm_num, by norm_num⟩,
    (resize_respects_minimums 200 150 ⟨0, 0, 300, 200, 500, 400⟩ .nw 1000 900
      (by norm_num) (by norm_num)).1,
    (resize_respects_minimums 200 150 ⟨0, 0, 300, 200, 500, 400⟩ .nw 1000 900
      (by norm_num) (by norm_num)).2.1,
    (resize_respects_minimums 200 150 ⟨0, 0, 300, 200, 500, 400⟩ .nw 1000 900
      (by norm_num) (by norm_num)).2.2.2.2.2.2.1⟩

/-! ## JSON (model of the `JSON.stringify` / `JSON.parse` built-ins)

The dashboard persists its layout with
`localStorage.setItem('dashboardLayout', JSON.stringify(widgets))` and loads
it with `JSON.parse`. The built-ins are modelled by an executable printer
and recursive-descent parser over a `Json` tree. The model covers the JSON
fragment the layout uses: no insignificant whitespace, no string escapes
(the persisted strings contain none; the parser rejects a backslash), and
integer numbers without exponents or fractions. -/

/-- A JSON value. Numbers are integers; object entries keep insertion
order, as `JSON.stringify` emits them. -/
inductive Json where
  | null
  | bool (b : Bool)
  | num (n : Int)
  | str (s : List Char)
  | arr (items : List Json)
  | obj (entries : List (List Char × Json))

mutual

/-- Model of `JSON.stringify` (no-indent form) on a `Json` tree. -/
def printJson : Json → List Char
  | .null => "null".data
  | .bool true => "true".data
  | .bool false => "false".data
  | .num n => intToChars n
  | .str s => '"' :: s ++ ['"']
  | .arr items => '[' :: printArrItems items ++ [']']
  | .obj entries => '{' :: printObjItems entries ++ ['}']

/-- Comma-separated rendering of array elements. -/
def printArrItems : List Json → List Char
  | [] => []
  | [x] => printJson x
  | x :: xs => printJson x ++ ',' :: printArrItems xs

/-- Comma-separated rendering of object entries (`"key":value`). -/
def printObjItems : List (List Char × Json) → List Char
  | [] => []
  | [(k, v)] => '"' :: k ++ '"' :: ':' :: printJson v
  | (k, v) :: kvs => ('"' :: k ++ '"' :: ':' :: printJson v) ++ ',' :: printObjItems kvs

end

/-- Decimal digit character test. -/
def isDigitChar (c : Char) : Bool := decide ('0' ≤ c) && decide (c ≤ '9')

/-- Consume a maximal run of decimal digits, folding them onto `acc`. -/
def parseDigitsAux : List Char → Nat → Nat × List Char
  | [], acc => (acc, [])
  | c :: rest, acc =>
    if isDigitChar c then parseDigitsAux rest (acc * 10 + (c.toNat - 48))
    else (acc, c :: rest)

/-- Consume the body of a string literal up to the closing quote. Escape
sequences are rejected (none occur in the persisted layouts). -/
def parseStrChars : List Char → Option (List Char × List Char)
  | [] => none
  | c :: rest =>
    if c = '"' then some ([], rest)
    else if c = '\\' then none
    else (parseStrChars rest).map (fun r => (c :: r.1, r.2))

mutual

/-- Fuelled recursive-descent JSON value parser; returns the value and the
unconsumed remainder. Every recursive call spends one unit of fuel. -/
def parseVal : Nat → List Char → Option (Json × List Char)
  | 0, _ => none
  | fuel + 1, cs =>
    match cs with
    | [] => none
    | c :: rest =>
      if c = '"' then (parseStrChars rest).map (fun r => (Json.str r.1, r.2))
      else if c = '[' then
        match rest with
        | [] => none
        | c2 :: rest2 =>
          if c2 = ']' then some (Json.arr [], rest2) else parseArrItems fuel (c2 :: rest2)
      else if c = '{' then
        match rest with
        | [] => none
        | c2 :: rest2 =>
          if c2 = '}' then some (Json.obj [], rest2) else parseObjItems fuel (c2 :: rest2)
      else if c = '-' then
        match rest with
        | [] => none
        | c2 :: rest2 =>
          if isDigitChar c2 then
            let r := parseDigitsAux (c2 :: rest2) 0
            some (Json.num (-(r.1 : Int)), r.2)
          else none
      else if isDigitChar c then
        let r := parseDigitsAux (c :: rest) 0
        some (Json.num ((r.1 : Nat) : Int), r.2)
      else if c = 'n' then
        match rest with
        | 'u' :: 'l' :: 'l' :: rest2 => some (Json.null, rest2)
        | _ => none
      else if c = 't' then
        match rest with
        | 'r' :: 'u' :: 'e' :: rest2 => some (Json.bool true, rest2)
        | _ => none
      else if c = 'f' then
        match rest with
        | 'a' :: 'l' :: 's' :: 'e' :: rest2 => some (Json.bool false, rest2)
        | _ => none
      else none

/-- Parse one or more comma-separated array elements up to `]`. -/
def parseArrItems : Nat → List Char → Option (Json × List Char)
  | 0, _ => none
  | fuel + 1, cs =>
    match parseVal fuel cs with
    | none => none
    | some (v, rest) =>
      match rest with
      | [] => none
      | c :: rest2 =>
        if c = ',' then
          match parseArrItems fuel rest2 with
          | some (Json.arr items, rest3) => some (Json.arr (v :: items), rest3)
          | _ => none
        else if c = ']' then some (Json.arr [v], rest2)
        else none

/-- Parse one or more comma-separated `"key":value` entries up to `}`. -/
def parseObjItems : Nat → List Char → Option (Json × List Char)
  | 0, _ => none
  | fuel + 1, cs =>
    match cs with
    | [] => none
    | c :: rest =>
      if c = '"' then
        match parseStrChars rest with
        | none => none
        | some (k, rest1) =>
          match rest1 with
          | [] => none
          | c1 :: rest2 =>
            if c1 = ':' then
              match parseVal fuel rest2 with
              | none => none
              | some (v, rest3) =>
                match rest3 with
                | [] => none
                | c3 :: rest4 =>
                  if c3 = ',' then
                    match parseObjItems fuel rest4 with
                    | some (Json.obj entries, rest5) =>
                      some (Json.obj ((k, v) :: entries), rest5)
                    | _ => none
                  else if c3 = '}' then some (Json.obj [(k, v)], rest4)
                  else none
            else none
      else none

end

/-- Model of `JSON.parse`: run the value parser with sufficient fuel and
require the whole input to be consumed. -/
def parseJson (cs : List Char) : Option Json :=
  match parseVal (cs.length + 1) cs with
  | some (j, []) => some j
  | _ => none

/-- Characters that round-trip verbatim inside a JSON string literal (no
quote, no backslash; `JSON.stringify` would escape these two). -/
def safeChar (c : Char) : Bool := decide (c ≠ '"') && decide (c ≠ '\\')

mutual

/-- All strings (including object keys) of the value consist of safe
characters. -/
def safeJson : Json → Bool
  | .null => true
  | .bool _ => true
  | .num _ => true
  | .str s => s.all safeChar
  | .arr items => safeArr items
  | .obj entries => safeObj entries

/-- `safeJson` on every element. -/
def safeArr : List Json → Bool
  | [] => true
  | x :: xs => safeJson x && safeArr xs

/-- Safe key and `safeJson` value for every entry. -/
def safeObj : List (List Char × Json) → Bool
  | [] => true
  | (k, v) :: kvs => k.all safeChar && safeJson v && safeObj kvs

end

/-! ## Printer/parser round-trip lemmas -/

theorem digitToChar_isDigit {d : Nat} (h : d < 10) : isDigitChar (digitToChar d) = true := by
  interval_cases d <;> decide

theorem digitToChar_toNat {d : Nat} (h : d < 10) : (digitToChar d).toNat - 48 = d := by
  interval_cases d <;> decide

theorem natDigitsAux_digits :
    ∀ (fuel n : Nat), ∀ c ∈ natDigitsAux fuel n, isDigitChar c = true := by
  intro fuel
  induction fuel with
  | zero => intro n c hc; simp [natDigitsAux] at hc
  | succ fuel ih =>
    intro n c hc
    unfold natDigitsAux at hc
    split at hc
    · simp at hc
    · rcases List.mem_append.mp hc with h | h
      · exact ih _ c h
      · rcases List.mem_singleton.mp h with rfl
        exact digitToChar_isDigit (Nat.mod_lt _ (by norm_num))

theorem natToDigits_digits (n : Nat) : ∀ c ∈ natToDigits n, isDigitChar c = true := by
  unfold natToDigits
  split
  · intro c hc
    rcases List.mem_singleton.mp hc with rfl
    decide
  · exact natDigitsAux_digits n n

theorem natToDigits_ne_nil (n : Nat) : natToDigits n ≠ [] := by
  unfold natToDigits
  split
  · simp
  · next h =>
    cases n with
    | zero => exact absurd rfl h
    | succ m => simp [natDigitsAux]

theorem foldl_natDigitsAux : ∀ (fuel n acc : Nat), n ≤ fuel →
    List.foldl (fun a c => a * 10 + (c.toNat - 48)) acc (natDigitsAux fuel n)
      = acc * 10 ^ (natDigitsAux fuel n).length + n := by
  intro fuel
  induction fuel with
  | zero =>
    intro n acc h
    interval_cases n
    simp [natDigitsAux]
  | succ fuel ih =>
    intro n acc h
    unfold natDigitsAux
    split
    · next h0 => simp [h0]
    · next h0 =>
      rw [List.foldl_append]
      have hdiv : n / 10 ≤ fuel := by
        have : n / 10 < n := Nat.div_lt_self (Nat.pos_of_ne_zero h0) (by norm_num)
        omega
      rw [ih (n / 10) acc hdiv]
      simp only [List.foldl_cons, List.foldl_nil, List.length_append, List.length_singleton]
      rw [digitToChar_toNat (Nat.mod_lt n (by norm_num))]
      calc (acc * 10 ^ (natDigitsAux fuel (n / 10)).length + n / 10) * 10 + n % 10
          = acc * (10 ^ (natDigitsAux fuel (n / 10)).length * 10)
              + (10 * (n / 10) + n % 10) := by ring
        _ = acc * 10 ^ ((natDigitsAux fuel (n / 10)).length + 1) + n := by
              rw [Nat.div_add_mod, pow_succ]

theorem parseDigitsAux_digits_append : ∀ (l₁ l₂ : List Char) (acc : Nat),
    (∀ c ∈ l₁, isDigitChar c = true) →
    parseDigitsAux (l₁ ++ l₂) acc
      = parseDigitsAux l₂ (List.foldl (fun a c => a * 10 + (c.toNat - 48)) acc l₁) := by
  intro l₁
  induction l₁ with
  | nil => intro l₂ acc _; rfl
  | cons c cs ih =>
    intro l₂ acc h
    simp only [List.cons_append, parseDigitsAux, h c (List.mem_cons_self _ _), if_true,
      List.foldl_cons]
    exact ih l₂ _ (fun d hd => h d (List.mem_cons_of_mem _ hd))

/-- The continuation does not start with a digit (holds for `[]` and for
continuations headed by a JSON delimiter). -/
def noLeadDigit (l : List Char) : Prop :=
  match l with
  | [] => True
  | c :: _ => isDigitChar c = false

theorem parseDigitsAux_stop (l : List Char) (acc : Nat) (h : noLeadDigit l) :
    parseDigitsAux l acc = (acc, l) := by
  cases l with
  | nil => rfl
  | cons c rest =>
    unfold noLeadDigit at h
    simp [parseDigitsAux, h]

theorem parseDigitsAux_natToDigits (n : Nat) (rest : List Char) (h : noLeadDigit rest) :
    parseDigitsAux (natToDigits n ++ rest) 0 = (n, rest) := by
  rw [parseDigitsAux_digits_append _ _ _ (natToDigits_digits n),
    parseDigitsAux_stop _ _ h]
  congr 1
  unfold natToDigits
  split
  · next h0 => subst h0; decide
  · next h0 =>
    rw [foldl_natDigitsAux n n 0 le_rfl]
    simp

theorem parseStrChars_safe : ∀ (s rest : List Char), (∀ c ∈ s, safeChar c = true) →
    parseStrChars (s ++ '"' :: rest) = some (s, rest) := by
  intro s
  induction s with
  | nil => intro rest _; simp [parseStrChars]
  | cons c cs ih =>
    intro rest h
    have hc := h c (List.mem_cons_self _ _)
    unfold safeChar at hc
    rw [Bool.and_eq_true] at hc
    have h1 : c ≠ '"' := of_decide_eq_true hc.1
    have h2 : c ≠ '\\' := of_decide_eq_true hc.2
    simp only [List.cons_append, parseStrChars, if_neg h1, if_neg h2, List.append_eq,
      ih rest (fun d hd => h d (List.mem_cons_of_mem _ hd))]
    rfl

theorem isDigitChar_ne {c : Char} (h : isDigitChar c = true) :
    c ≠ '"' ∧ c ≠ '[' ∧ c ≠ '{' ∧ c ≠ '-' ∧ c ≠ ']' ∧ c ≠ '}' := by
  unfold isDigitChar at h
  rw [Bool.and_eq_true] at h
  have h1 : '0' ≤ c := of_decide_eq_true h.1
  have h2 : c ≤ '9' := of_decide_eq_true h.2
  refine ⟨?_, ?_, ?_, ?_, ?_, ?_⟩ <;> intro he <;> subst he
  · exact absurd h1 (by decide)
  · exact absurd h2 (by decide)
  · exact absurd h2 (by decide)
  · exact absurd h1 (by decide)
  · exact absurd h2 (by decide)
  · exact absurd h2 (by decide)

theorem printJson_head (j : Json) :
    ∃ c cs, printJson j = c :: cs ∧ c ≠ '}' ∧ c ≠ ']' := by
  cases j with
  | num n =>
    show ∃ c cs, intToChars n = c :: cs ∧ c ≠ '}' ∧ c ≠ ']'
    unfold intToChars
    split
    · refine ⟨_, _, rfl, by decide, by decide⟩
    · cases heq : natToDigits n.toNat with
      | nil => exact absurd heq (natToDigits_ne_nil _)
      | cons c cs =>
        have hd : isDigitChar c = true :=
          natToDigits_digits _ c (heq ▸ List.mem_cons_self _ _)
        refine ⟨c, cs, rfl, (isDigitChar_ne hd).2.2.2.2.2, (isDigitChar_ne hd).2.2.2.2.1⟩
  | bool b =>
    cases b
    · refine ⟨_, _, rfl, by decide, by decide⟩
    · refine ⟨_, _, rfl, by decide, by decide⟩
  | null => refine ⟨_, _, rfl, by decide, by decide⟩
  | str s => refine ⟨_, _, rfl, by decide, by decide⟩
  | arr items => refine ⟨_, _, rfl, by decide, by decide⟩
  | obj entries => refine ⟨_, _, rfl, by decide, by decide⟩

theorem noLeadDigit_nil : noLeadDigit [] := trivial

theorem noLeadDigit_comma (l : List Char) : noLeadDigit (',' :: l) := rfl

theorem noLeadDigit_rbrack (l : List Char) : noLeadDigit (']' :: l) := rfl

theorem noLeadDigit_rbrace (l : List Char) : noLeadDigit ('}' :: l) := rfl

theorem parseVal_digit (fuel : Nat) (c : Char) (l : List Char) (hd : isDigitChar c = true) :
    parseVal (fuel + 1) (c :: l)
      = some (Json.num (((parseDigitsAux (c :: l) 0).1 : Nat) : Int),
          (parseDigitsAux (c :: l) 0).2) := by
  obtain ⟨h1, h2, h3, h4, _, _⟩ := isDigitChar_ne hd
  simp only [parseVal]
  rw [if_neg h1, if_neg h2, if_neg h3, if_neg h4, if_pos hd]

theorem parseVal_minus (fuel : Nat) (c2 : Char) (l : List Char) (hd : isDigitChar c2 = true) :
    parseVal (fuel + 1) ('-' :: c2 :: l)
      = some (Json.num (-(((parseDigitsAux (c2 :: l) 0).1 : Nat) : Int)),
          (parseDigitsAux (c2 :: l) 0).2) := by
  simp only [parseVal]
  rw [if_pos trivial, if_pos hd]
  rfl

theorem parseVal_quote (fuel : Nat) (l : List Char) :
    parseVal (fuel + 1) ('"' :: l)
      = (parseStrChars l).map (fun r => (Json.str r.1, r.2)) := by
  simp only [parseVal]
  rw [if_pos trivial]

theorem parseVal_lbrack (fuel : Nat) (c2 : Char) (l : List Char) (h : ¬ c2 = ']') :
    parseVal (fuel + 1) ('[' :: c2 :: l) = parseArrItems fuel (c2 :: l) := by
  simp only [parseVal]
  rw [if_pos trivial, if_neg h]
  rfl

theorem parseVal_lbrace (fuel : Nat) (c2 : Char) (l : List Char) (h : ¬ c2 = '}') :
    parseVal (fuel + 1) ('{' :: c2 :: l) = parseObjItems fuel (c2 :: l) := by
  simp only [parseVal]
  rw [if_pos trivial, if_neg h]
  rfl

theorem printArrItems_head (x : Json) (xs : List Json) :
    ∃ l, printArrItems (x :: xs) = printJson x ++ l := by
  cases xs with
  | nil => exact ⟨[], by simp [printArrItems]⟩
  | cons y ys => exact ⟨',' :: printArrItems (y :: ys), rfl⟩

theorem printObjItems_head (k : List Char) (v : Json) (kvs : List (List Char × Json)) :
    ∃ l, printObjItems ((k, v) :: kvs) = '"' :: l := by
  cases kvs with
  | nil => exact ⟨k ++ '"' :: ':' :: printJson v, rfl⟩
  | cons kv2 kvs2 =>
    exact ⟨k ++ '"' :: ':' :: printJson v ++ ',' :: printObjItems (kv2 :: kvs2), by
      obtain ⟨k2, v2⟩ := kv2
      simp [printObjItems]⟩

theorem parse_print_aux : ∀ fuel : Nat,
    (∀ (j : Json) (rest : List Char), safeJson j = true → noLeadDigit rest →
        (printJson j).length < fuel →
        parseVal fuel (printJson j ++ rest) = some (j, rest))
    ∧ (∀ (items : List Json) (rest : List Char), safeArr items = true → items ≠ [] →
        (printArrItems items).length + 1 < fuel →
        parseArrItems fuel (printArrItems items ++ ']' :: rest)
          = some (Json.arr items, rest))
    ∧ (∀ (entries : List (List Char × Json)) (rest : List Char), safeObj entries = true →
        entries ≠ [] → (printObjItems entries).length + 1 < fuel →
        parseObjItems fuel (printObjItems entries ++ '}' :: rest)
          = some (Json.obj entries, rest)) := by
  intro fuel
  induction fuel with
  | zero =>
    refine ⟨fun j rest _ _ h => absurd h (by omega),
      fun items rest _ _ h => absurd h (by omega),
      fun entries rest _ _ h => absurd h (by omega)⟩
  | succ fuel ih =>
    obtain ⟨ihP, ihQ, ihR⟩ := ih
    refine ⟨?_, ?_, ?_⟩
    · intro j rest hsafe hnl hlen
      cases j with
      | null => rfl
      | bool b => cases b <;> rfl
      | num n =>
        simp only [printJson]
        unfold intToChars
        split
        · next hn =>
          cases heq : natToDigits (-n).toNat with
          | nil => exact absurd heq (natToDigits_ne_nil _)
          | cons c2 cs2 =>
            have hd : isDigitChar c2 = true :=
              natToDigits_digits _ c2 (heq ▸ List.mem_cons_self _ _)
            rw [show ('-' :: c2 :: cs2) ++ rest = '-' :: c2 :: (cs2 ++ rest) from rfl,
              parseVal_minus fuel c2 (cs2 ++ rest) hd,
              show c2 :: (cs2 ++ rest) = (c2 :: cs2) ++ rest from rfl, ← heq,
              parseDigitsAux_natToDigits _ rest hnl]
            have : (((-n).toNat : Nat) : Int) = -n :=
              Int.toNat_of_nonneg (by omega)
            rw [this, neg_neg]
        · next hn =>
          cases heq : natToDigits n.toNat with
          | nil => exact absurd heq (natToDigits_ne_nil _)
          | cons c2 cs2 =>
            have hd : isDigitChar c2 = true :=
              natToDigits_digits _ c2 (heq ▸ List.mem_cons_self _ _)
            rw [show (c2 :: cs2) ++ rest = c2 :: (cs2 ++ rest) from rfl,
              parseVal_digit fuel c2 (cs2 ++ rest) hd,
              show c2 :: (cs2 ++ rest) = (c2 :: cs2) ++ rest from rfl, ← heq,
              parseDigitsAux_natToDigits _ rest hnl]
            rw [Int.toNat_of_nonneg (by omega)]
      | str s =>
        have hs : ∀ c ∈ s, safeChar c = true := by
          have := hsafe
          unfold safeJson at this
          exact List.all_eq_true.mp this
        simp only [printJson, List.cons_append, List.append_assoc, List.singleton_append,
          List.nil_append]
        rw [parseVal_quote, parseStrChars_safe s rest hs]
        rfl
      | arr items =>
        cases items with
        | nil => rfl
        | cons x xs =>
          obtain ⟨tail, htail⟩ := printArrItems_head x xs
          obtain ⟨c0, cs0, hx, _, hne1⟩ := printJson_head x
          have hitems : printArrItems (x :: xs) ++ ']' :: rest
              = c0 :: (cs0 ++ tail ++ ']' :: rest) := by
            rw [htail, hx]
            simp [List.append_assoc]
          simp only [printJson, List.cons_append, List.append_assoc, List.singleton_append,
            List.nil_append]
          rw [show printArrItems (x :: xs) ++ ']' :: rest
              = c0 :: (cs0 ++ tail ++ ']' :: rest) from hitems]
          rw [parseVal_lbrack fuel c0 _ hne1, ← hitems]
          have hsafe' : safeArr (x :: xs) = true := by
            have := hsafe
            unfold safeJson at this
            exact this
          have hbound : (printArrItems (x :: xs)).length + 1 < fuel := by
            have := hlen
            simp only [printJson, List.length_cons, List.length_append,
              List.length_singleton] at this
            omega
          exact ihQ (x :: xs) rest hsafe' (by simp) hbound
      | obj entries =>
        cases entries with
        | nil => rfl
        | cons kv kvs =>
          obtain ⟨k, v⟩ := kv
          obtain ⟨tail, htail⟩ := printObjItems_head k v kvs
          have hitems : printObjItems ((k, v) :: kvs) ++ '}' :: rest
              = '"' :: (tail ++ '}' :: rest) := by
            rw [htail]; rfl
          simp only [printJson, List.cons_append, List.append_assoc, List.singleton_append,
            List.nil_append]
          rw [show printObjItems ((k, v) :: kvs) ++ '}' :: rest
              = '"' :: (tail ++ '}' :: rest) from hitems]
          rw [parseVal_lbrace fuel '"' _ (by decide), ← hitems]
          have hsafe' : safeObj ((k, v) :: kvs) = true := by
            have := hsafe
            unfold safeJson at this
            exact this
          have hbound : (printObjItems ((k, v) :: kvs)).length + 1 < fuel := by
            have := hlen
            simp only [printJson, List.length_cons, List.length_append,
              List.length_singleton] at this
            omega
          exact ihR ((k, v) :: kvs) rest hsafe' (by simp) hbound
    · intro items rest hsafe hne hlen
      cases items with
      | nil => exact absurd rfl hne
      | cons x xs =>
        have hsx : safeJson x = true ∧ safeArr xs = true := by
          have := hsafe
          unfold safeArr at this
          rw [Bool.and_eq_true] at this
          exact this
        obtain ⟨c0, cs0, hx, _, _⟩ := printJson_head x
        have hxlen : 1 ≤ (printJson x).length := by rw [hx]; simp
        cases xs with
        | nil =>
          simp only [printArrItems] at hlen ⊢
          simp only [parseArrItems]
          rw [ihP x (']' :: rest) hsx.1 (noLeadDigit_rbrack rest) (by omega)]
          rfl
        | cons y ys =>
          simp only [printArrItems] at hlen ⊢
          simp only [List.length_append, List.length_cons] at hlen
          simp only [parseArrItems, List.append_assoc, List.cons_append]
          rw [ihP x (',' :: (printArrItems (y :: ys) ++ ']' :: rest)) hsx.1
            (noLeadDigit_comma _) (by omega)]
          dsimp only
          rw [if_pos rfl, ihQ (y :: ys) rest hsx.2 (by simp) (by omega)]
    · intro entries rest hsafe hne hlen
      cases entries with
      | nil => exact absurd rfl hne
      | cons kv kvs =>
        obtain ⟨k, v⟩ := kv
        have hsk : (k.all safeChar = true ∧ safeJson v = true) ∧ safeObj kvs = true := by
          have := hsafe
          unfold safeObj at this
          rw [Bool.and_eq_true, Bool.and_eq_true] at this
          exact ⟨this.1, this.2⟩
        have hkchars : ∀ c ∈ k, safeChar c = true := List.all_eq_true.mp hsk.1.1
        cases kvs with
        | nil =>
          simp only [printObjItems] at hlen ⊢
          simp only [List.cons_append, List.append_assoc, List.length_cons,
            List.length_append] at hlen ⊢
          simp only [parseObjItems]
          rw [parseStrChars_safe k _ hkchars]
          dsimp only
          rw [if_pos rfl, ihP v ('}' :: rest) hsk.1.2 (noLeadDigit_rbrace rest) (by omega)]
          rfl
        | cons kv2 kvs2 =>
          obtain ⟨k2, v2⟩ := kv2
          simp only [printObjItems] at hlen ⊢
          simp only [List.cons_append, List.append_assoc, List.length_cons,
            List.length_append] at hlen ⊢
          simp only [parseObjItems]
          rw [parseStrChars_safe k _ hkchars]
          dsimp only
          rw [if_pos rfl, ihP v (',' :: (printObjItems ((k2, v2) :: kvs2) ++ '}' :: rest))
            hsk.1.2 (noLeadDigit_comma _) (by omega)]
          dsimp only
          rw [if_pos rfl, ihR ((k2, v2) :: kvs2) rest hsk.2 (by simp) (by omega)]
          rfl

theorem parseJson_printJson (j : Json) (h : safeJson j = true) :
    parseJson (printJson j) = some j := by
  unfold parseJson
  have hmain := (parse_print_aux ((printJson j).length + 1)).1 j [] h noLeadDigit_nil
    (by omega)
  rw [List.append_nil] at hmain
  rw [hmain]

/-! ## Widget layout persistence (the two `useEffect` hooks of
`FlexibleDashboard`) -/

/-- The inverse of `widgetTypeStr` on the nine discriminator strings. -/
def parseWidgetTypeStr (s : List Char) : Option WidgetType :=
  if s = "stats".data then some .stats
  else if s = "chart".data then some .chart
  else if s = "activity".data then some .activity
  else if s = "finance".data then some .finance
  else if s = "crypto-surface".data then some .cryptoSurface
  else if s = "stock-surface".data then some .stockSurface
  else if s = "crypto-candle".data then some .cryptoCandle
  else if s = "stock-candle".data then some .stockCandle
  else if s = "news".data then some .news
  else none

/-- The JSON object `JSON.stringify` produces for a widget. Key order
follows the construction `{...template, id, position}` in `addWidget`
(template keys first), with `isMaximized` appended when present; absent
optional fields are omitted, as `JSON.stringify` drops `undefined`
properties. -/
def widgetToJson (w : Widget) : Json :=
  Json.obj
    ([("type".data, Json.str (widgetTypeStr w.type)),
      ("title".data, Json.str w.title)]
      ++ (match w.description with
          | some d => [("description".data, Json.str d)]
          | none => [])
      ++ [("size".data, Json.obj [("width".data, Json.num w.size.width),
            ("height".data, Json.num w.size.height)]),
          ("id".data, Json.str w.id),
          ("position".data, Json.obj [("x".data, Json.num w.position.x),
            ("y".data, Json.num w.position.y)])]
      ++ (match w.isMaximized with
          | some b => [("isMaximized".data, Json.bool b)]
          | none => []))

/-- Property lookup on a parsed JSON object (first entry with the key). -/
def lookupKey : List (List Char × Json) → List Char → Option Json
  | [], _ => none
  | kv :: rest, k => if kv.1 = k then some kv.2 else lookupKey rest k

/-- Read a JSON value as a string. -/
def asStr : Json → Option (List Char)
  | .str s => some s
  | _ => none

/-- Read a JSON value as an integer. -/
def asInt : Json → Option Int
  | .num n => some n
  | _ => none

/-- Read a JSON value as a boolean. -/
def asBool : Json → Option Bool
  | .bool b => some b
  | _ => none

/-- Read a parsed JSON value as a widget `position`. -/
def jsonToPos : Json → Option Pos
  | .obj entries => do
    let x ← lookupKey entries "x".data >>= asInt
    let y ← lookupKey entries "y".data >>= asInt
    pure ⟨x, y⟩
  | _ => none

/-- Read a parsed JSON value as a widget `size`. -/
def jsonToSize : Json → Option Size
  | .obj entries => do
    let width ← lookupKey entries "width".data >>= asInt
    let height ← lookupKey entries "height".data >>= asInt
    pure ⟨width, height⟩
  | _ => none

/-- Read a parsed JSON value as a `Widget` (the shape the dashboard code
assumes of each element of `JSON.parse(savedLayout)`). -/
def jsonToWidget : Json → Option Widget
  | .obj entries => do
    let id ← lookupKey entries "id".data >>= asStr
    let ty ← lookupKey entries "type".data >>= asStr >>= parseWidgetTypeStr
    let title ← lookupKey entries "title".data >>= asStr
    let descr ← match lookupKey entries "description".data with
      | none => pure none
      | some j => (asStr j).map some
    let pos ← lookupKey entries "position".data >>= jsonToPos
    let size ← lookupKey entries "size".data >>= jsonToSize
    let maxi ← match lookupKey entries "isMaximized".data with
      | none => pure none
      | some j => (asBool j).map some
    pure ⟨id, ty, title, descr, pos, size, maxi⟩
  | _ => none

/-- The JSON array persisted for the widget collection. -/
def widgetsToJson (widgets : List Widget) : Json :=
  Json.arr (widgets.map widgetToJson)

/-- Read each element of a JSON array as a widget. -/
def widgetsFromJsonList : List Json → Option (List Widget)
  | [] => some []
  | j :: rest => do
    let w ← jsonToWidget j
    let ws ← widgetsFromJsonList rest
    pure (w :: ws)

/-- Read a parsed JSON value as a widget collection. -/
def jsonToWidgets : Json → Option (List Widget)
  | .arr items => widgetsFromJsonList items
  | _ => none

/-- `JSON.stringify(widgets)`: the string written to
`localStorage['dashboardLayout']` on every mutation. -/
def serializeLayout (widgets : List Widget) : List Char :=
  printJson (widgetsToJson widgets)

/-- `JSON.parse` of a stored layout string followed by reading the result
as a widget collection. -/
def deserializeLayout (s : List Char) : Option (List Widget) :=
  (parseJson s).bind jsonToWidgets

/-- A widget whose strings contain no character `JSON.stringify` would
escape (true of every widget the dashboard creates: template titles and
descriptions and `widget-<timestamp>` ids). -/
def safeWidget (w : Widget) : Bool :=
  w.id.all safeChar && w.title.all safeChar
    && (match w.description with
        | some d => d.all safeChar
        | none => true)

theorem jsonToWidget_widgetToJson (w : Widget) :
    jsonToWidget (widgetToJson w) = some w := by
  obtain ⟨id, ty, title, descr, ⟨x, y⟩, ⟨width, height⟩, maxi⟩ := w
  cases descr <;> cases maxi <;> cases ty <;> rfl

theorem safeJson_widgetToJson (w : Widget) (h : safeWidget w = true) :
    safeJson (widgetToJson w) = true := by
  obtain ⟨id, ty, title, descr, pos, size, maxi⟩ := w
  unfold safeWidget at h
  rw [Bool.and_eq_true, Bool.and_eq_true] at h
  obtain ⟨⟨hid, htitle⟩, hdescr⟩ := h
  have hty : (widgetTypeStr ty).all safeChar = true := by cases ty <;> decide
  have hk1 : ("type".data).all safeChar = true := by decide
  have hk2 : ("title".data).all safeChar = true := by decide
  have hk3 : ("description".data).all safeChar = true := by decide
  have hk4 : ("size".data).all safeChar = true := by decide
  have hk5 : ("width".data).all safeChar = true := by decide
  have hk6 : ("height".data).all safeChar = true := by decide
  have hk7 : ("id".data).all safeChar = true := by decide
  have hk8 : ("position".data).all safeChar = true := by decide
  have hk9 : ("x".data).all safeChar = true := by decide
  have hk10 : ("y".data).all safeChar = true := by decide
  have hk11 : ("isMaximized".data).all safeChar = true := by decide
  cases descr <;> cases maxi <;>
    simp_all [widgetToJson, safeJson, safeObj, safeArr]

theorem widgetsFromJsonList_map (widgets : List Widget) :
    widgetsFromJsonList (widgets.map widgetToJson) = some widgets := by
  induction widgets with
  | nil => rfl
  | cons w ws ih =>
    simp only [List.map_cons, widgetsFromJsonList, jsonToWidget_widgetToJson w, ih]
    rfl

theorem safeJson_widgetsToJson (widgets : List Widget)
    (h : widgets.all safeWidget = true) : safeJson (widgetsToJson widgets) = true := by
  unfold widgetsToJson
  rw [show safeJson (Json.arr (widgets.map widgetToJson))
      = safeArr (widgets.map widgetToJson) from rfl]
  induction widgets with
  | nil => rfl
  | cons w ws ih =>
    rw [List.all_cons, Bool.and_eq_true] at h
    simp only [List.map_cons, safeArr, Bool.and_eq_true]
    exact ⟨safeJson_widgetToJson w h.1, ih h.2⟩

/-- C7: serializing a widget collection to the persisted JSON string and
parsing that string back reproduces the same collection — order and every
field (id, type, title, description, position, size, isMaximized)
preserved — for every collection whose strings contain no
escape-requiring character (true of all widgets the dashboard creates). -/
theorem layout_roundtrip (widgets : List Widget) (h : widgets.all safeWidget = true) :
    deserializeLayout (serializeLayout widgets) = some widgets := by
  unfold serializeLayout deserializeLayout
  rw [parseJson_printJson _ (safeJson_widgetsToJson widgets h)]
  show jsonToWidgets (widgetsToJson widgets) = some widgets
  unfold widgetsToJson jsonToWidgets
  exact widgetsFromJsonList_map widgets

/-- A second demo widget: moved, maximized, with a distinct id. -/
def demoWidget2 : Widget :=
  { demoWidget with
      id := "widget-2".data, position := ⟨0, 40⟩, isMaximized := some true }

/-- C7 (witness): the round-trip theorem applied to a two-widget
collection, one widget maximized and moved. -/
theorem layout_roundtrip_witness :
    ([demoWidget, demoWidget2] : List Widget).all safeWidget = true
    ∧ deserializeLayout (serializeLayout [demoWidget, demoWidget2])
        = some [demoWidget, demoWidget2] :=
  ⟨by decide, layout_roundtrip [demoWidget, demoWidget2] (by decide)⟩

/-- C8: `addWidget(kind)` appends exactly one widget instantiated from the
fixed template for the kind — fresh time-derived id, template title,
description and size, centered horizontally in the measured container with
y = 100 (both clamped at zero), or at the fixed offset (50, 100) when the
container cannot be measured; provided the clock-derived id is not already
taken, the new id is unique and removing it restores the previous
collection; in particular adding to an empty dashboard gives length 1 and
removing gives length 0, whose persisted serialization is the string
`[]`. -/
theorem addWidget_spec (widgets : List Widget) (ty : WidgetType) (now : Nat)
    (rectWidth : Option Int)
    (hfresh : ∀ w ∈ widgets, w.id ≠ widgetId now) :
    (addWidget widgets ty now rectWidth).length = widgets.length + 1
    ∧ (∃ w, addWidget widgets ty now rectWidth = widgets ++ [w]
        ∧ w.id = widgetId now
        ∧ w.type = ty
        ∧ w.title = (WIDGET_TEMPLATES ty).1
        ∧ w.description = some (WIDGET_TEMPLATES ty).2.1
        ∧ w.size = (WIDGET_TEMPLATES ty).2.2
        ∧ w.position = (match rectWidth with
            | some rw => ⟨max 0 ((rw - (WIDGET_TEMPLATES ty).2.2.width) / 2), max 0 100⟩
            | none => (⟨50, 100⟩ : Pos))
        ∧ w.id ∉ widgets.map Widget.id)
    ∧ removeWidget (addWidget widgets ty now rectWidth) (widgetId now) = widgets
    ∧ (widgets = [] →
        serializeLayout (removeWidget (addWidget widgets ty now rectWidth) (widgetId now))
          = ['[', ']']) := by
  have hkeep : widgets.filter (fun w => w.id ≠ widgetId now) = widgets :=
    List.filter_eq_self.mpr (fun w hw => decide_eq_true (hfresh w hw))
  have hnotmem : widgetId now ∉ widgets.map Widget.id := by
    intro hm
    rcases List.mem_map.mp hm with ⟨w, hw, he⟩
    exact hfresh w hw he
  cases rectWidth with
  | some rw =>
    refine ⟨by simp [addWidget], ⟨_, rfl, rfl, rfl, rfl, rfl, rfl, rfl, hnotmem⟩, ?_, ?_⟩
    · unfold removeWidget addWidget
      rw [List.filter_append, hkeep]
      simp
    · intro he
      subst he
      unfold removeWidget addWidget
      simp [serializeLayout, widgetsToJson, printJson, printArrItems]
  | none =>
    refine ⟨by simp [addWidget], ⟨_, rfl, rfl, rfl, rfl, rfl, rfl, rfl, hnotmem⟩, ?_, ?_⟩
    · unfold removeWidget addWidget
      rw [List.filter_append, hkeep]
      simp
    · intro he
      subst he
      unfold removeWidget addWidget
      simp [serializeLayout, widgetsToJson, printJson, printArrItems]

/-- C8 (witness): the template-instantiation theorem applied to an empty
dashboard, a `chart` widget, a concrete clock value and a 1200px-wide
container (centered x = (1200 − 500) / 2 = 350). -/
theorem addWidget_spec_witness :
    (∀ w ∈ ([] : List Widget), w.id ≠ widgetId 1730000000000)
    ∧ ((addWidget [] .chart 1730000000000 (some 1200)).length = 0 + 1
      ∧ (∃ w, addWidget [] .chart 1730000000000 (some 1200) = [] ++ [w]
          ∧ w.id = widgetId 1730000000000
          ∧ w.type = .chart
          ∧ w.title = (WIDGET_TEMPLATES .chart).1
          ∧ w.description = some (WIDGET_TEMPLATES .chart).2.1
          ∧ w.size = (WIDGET_TEMPLATES .chart).2.2
          ∧ w.position = (⟨max 0 ((1200 - (WIDGET_TEMPLATES .chart).2.2.width) / 2),
              max 0 100⟩ : Pos)
          ∧ w.id ∉ ([] : List Widget).map Widget.id)
      ∧ removeWidget (addWidget [] .chart 1730000000000 (some 1200))
          (widgetId 1730000000000) = []
      ∧ (([] : List Widget) = [] →
          serializeLayout (removeWidget (addWidget [] .chart 1730000000000 (some 1200))
            (widgetId 1730000000000)) = ['[', ']'])) :=
  ⟨by simp, addWidget_spec [] .chart 1730000000000 (some 1200) (by simp)⟩

/-- Embedding of the load-layout `useEffect` of `FlexibleDashboard`: the
widget state after mount, represented as the raw JSON value installed by
`setWidgets(JSON.parse(savedLayout))` — the code performs no shape
validation — paired with whether a parse failure was caught and logged.
`none` models an absent `localStorage` key; the initial state is the
empty array. -/
def loadDashboard (savedLayout : Option (List Char)) : Json × Bool :=
  match savedLayout with
  | none => (Json.arr [], false)
  | some s =>
    match parseJson s with
    | some j => (j, false)
    | none => (Json.arr [], true)

/-- C9 (counterexample): the stored string `42` parses as JSON but fails to
deserialize as a widget collection, yet the dashboard state after load is
the number 42, not the empty collection — the load path validates only
JSON syntax, not the widget shape. -/
theorem load_unvalidated_counterexample :
    jsonToWidgets (loadDashboard (some ['4', '2'])).1 = none
    ∧ (loadDashboard (some ['4', '2'])).1 ≠ Json.arr []
    ∧ (loadDashboard (some ['4', '2'])).2 = false := by
  refine ⟨rfl, ?_, rfl⟩
  rw [show (loadDashboard (some ['4', '2'])).1 = Json.num 42 from rfl]
  exact fun h => Json.noConfusion h

/-- C9 (amended): for every stored string that fails to parse as JSON the
load is non-fatal — the failure is logged and the dashboard starts with the
empty collection, exactly as with no saved layout; but a string that parses
as JSON is installed as the widget state unvalidated, whether or not it is
a widget collection. -/
theorem load_layout_amended :
    (∀ s : List Char, parseJson s = none → loadDashboard (some s) = (Json.arr [], true))
    ∧ (∀ (s : List Char) (j : Json), parseJson s = some j →
        loadDashboard (some s) = (j, false))
    ∧ loadDashboard none = (Json.arr [], false)
    ∧ parseJson ['x', 'y', 'z'] = none
    ∧ loadDashboard (some ['x', 'y', 'z']) = (Json.arr [], true) := by
  refine ⟨?_, ?_, rfl, rfl, rfl⟩
  · intro s h
    unfold loadDashboard
    dsimp only
    rw [h]
  · intro s j h
    unfold loadDashboard
    dsimp only
    rw [h]

/-- C9 (witness): the amended load theorem applied to the unparsable stored
string `xyz`. -/
theorem load_layout_amended_witness :
    parseJson ['x', 'y', 'z'] = none
    ∧ loadDashboard (some ['x', 'y', 'z']) = (Json.arr [], true) :=
  ⟨rfl, load_layout_amended.1 ['x', 'y', 'z'] rfl⟩

end Finance3D
